import Mathlib

/-!
# ServiceNow login redirect helper: the background coordinator

A shallow embedding of `src/background.js`.

* JavaScript strings are Lean strings; `String.prototype.includes` is the
  substring test on their characters.
* The five `oauthPatterns` are regular expressions without flags, each a plain
  sequence of literal characters (the only escape is the dot), so
  `pattern.test(url)` searches `url` for that sequence.
* `new URL(url).hostname` is the browser's URL parser. It is a parameter
  `hostnameOf : String → Option String` of the functions that call it; `none`
  stands for the `TypeError` the constructor throws.
-/

namespace SNAuth

/-! ## Strings -/

/-- Substring search on characters: is `pat` found somewhere in `s`. -/
def includesChars : List Char → List Char → Bool
  | [], pat => pat.isEmpty
  | c :: cs, pat => pat.isPrefixOf (c :: cs) || includesChars cs pat

/-- The method `s.includes(searchString)` of a JavaScript string. -/
def includes (s searchString : String) : Bool :=
  includesChars s.data searchString.data

/-- JavaScript truthiness of a value that is a string, `null` or `undefined`:
only a non-empty string is truthy. -/
def truthy : Option String → Bool
  | some s => s != ""
  | none => false

/-! ## Navigation classifier (`background.js` lines 28-48) -/

/-- A regular expression literal made of literal characters only. -/
structure RegExp where
  literal : String
  deriving DecidableEq, Repr

/-- The method `pattern.test(url)`: the literal occurs somewhere in `url`. -/
def RegExp.test (pattern : RegExp) (url : String) : Bool :=
  includes url pattern.literal

/-- The constant `oauthPatterns`. -/
def oauthPatterns : List RegExp :=
  [ ⟨"auth_redirect.do"⟩,
    ⟨"oauth_redirect.do"⟩,
    ⟨"navpage.do"⟩,
    ⟨"login.microsoftonline.com"⟩,
    ⟨"sso.do"⟩ ]

/-- The function `isOAuthRedirect(url)`. -/
def isOAuthRedirect (url : String) : Bool :=
  oauthPatterns.any (fun pattern => pattern.test url)

/-- The function `isServiceNowInstance(url)`, reading the module variable
`instances`. A throwing `new URL(url)` lands in the `catch` branch. -/
def isServiceNowInstance (hostnameOf : String → Option String)
    (instances : List String) (url : String) : Bool :=
  match hostnameOf url with
  | some hostname => instances.any (fun inst => includes hostname inst)
  | none => false

/-! ## Tab state store (`background.js` lines 4-10)

`redirectedTabs` is a `Map` from tab identifier to a record object, the two
others are `Set`s of tab identifiers. Both keep insertion order. The record
objects are mutable and shared by reference (the interceptor stores one, the
tab lookup later assigns its `originalUrl`, `handleAdminLogin` keeps the
object it read in its callbacks), so the objects live in a heap addressed by
position and the map holds references. Objects are never freed, and every
reference stored in the map or held by a callback was allocated by the
interceptor (`run_refsValid` below); reading a reference outside the heap
yields `undefined`. -/

/-- The record object stored in `redirectedTabs`. The field `instanceHost` is
the source's `instance`; `null` and `undefined` are both `none`. -/
structure TabInfo where
  originalUrl : Option String
  redirectUrl : String
  instanceHost : String
  timestamp : Nat
  deriving DecidableEq, Repr

namespace JsMap

/-- The method `map.get(key)`. -/
def get {α : Type} (m : List (Nat × α)) (key : Nat) : Option α :=
  m.lookup key

/-- The method `map.has(key)`. -/
def has {α : Type} (m : List (Nat × α)) (key : Nat) : Bool :=
  (get m key).isSome

/-- The method `map.set(key, value)`: an existing key keeps its position. -/
def set {α : Type} (m : List (Nat × α)) (key : Nat) (value : α) : List (Nat × α) :=
  if has m key then m.map (fun e => if e.1 == key then (key, value) else e)
  else m ++ [(key, value)]

/-- The method `map.delete(key)`. -/
def delete {α : Type} (m : List (Nat × α)) (key : Nat) : List (Nat × α) :=
  m.filter (fun e => e.1 != key)

end JsMap

namespace JsSet

/-- The method `set.has(value)`. -/
def has (s : List Nat) (value : Nat) : Bool :=
  s.contains value

/-- The method `set.add(value)`. -/
def add (s : List Nat) (value : Nat) : List Nat :=
  if has s value then s else s ++ [value]

/-- The method `set.delete(value)`. -/
def delete (s : List Nat) (value : Nat) : List Nat :=
  s.filter (fun x => x != value)

end JsSet

/-- The variables a `listener` closure of `monitorLoginCompletion` captures. -/
structure Monitor where
  tabId : Nat
  instanceHost : String
  originalUrl : Option String
  deriving DecidableEq, Repr

/-- The `then`/`catch` handler pairs attached to browser promises. -/
inductive Handlers where
  /-- Lines 98-134, on `browser.tabs.get(tabId)`. -/
  | tabLookup (tabId : Nat)
  /-- Lines 169-188, on `browser.windows.create(...)` (a `catch` only). -/
  | promptWindow (tabId : Nat)
  /-- Lines 232-242, on the navigation to `login.do`; `tabInfo` is the
  reference that `handleAdminLogin` read. -/
  | adminNavigation (tabId : Nat) (tabInfo : Nat)
  /-- Lines 264-277, on the navigation to the redirect URL. -/
  | oauthNavigation (tabId : Nat)
  /-- Lines 331-354, on the navigation back to the original URL. -/
  | returnNavigation (tabId : Nat)
  deriving DecidableEq, Repr

/-- The functions passed to `setTimeout`. -/
inductive Callback where
  /-- Lines 261-278. The field `redirectUrl` is never assigned after the
  record is created, so the callback carries its value. -/
  | oauthNavigate (tabId : Nat) (redirectUrl : String)
  /-- Lines 268-272. -/
  | oauthCleanup (tabId : Nat)
  /-- Lines 328-355. -/
  | returnToOriginal (tabId : Nat) (originalUrl : String)
  /-- Lines 337-344 and 361-368. -/
  | loginFlagCleanup (tabId : Nat)
  /-- Lines 376-380; `listener` identifies the closure to unregister. -/
  | monitorTimeout (tabId : Nat) (listener : Nat)
  deriving DecidableEq, Repr

/-- What a handler asks of the browser. The prompt address is built by
`browser.runtime.getURL` and `encodeURIComponent` from the tab identifier and
the instance, which is what `windowsCreate` records. Delays are milliseconds. -/
inductive Effect where
  | tabsGet (tabId : Nat) (k : Handlers)
  | tabsUpdate (tabId : Nat) (url : String) (k : Handlers)
  | windowsCreate (tabId : Nat) (instanceHost : String) (k : Handlers)
  | setTimeout (callback : Callback) (delay : Nat)
  deriving DecidableEq, Repr

/-- The module state of the background script. -/
structure State where
  heap : List TabInfo
  redirectedTabs : List (Nat × Nat)
  allowedOAuthTabs : List Nat
  loginInProgressTabs : List Nat
  instances : List String
  listeners : List (Nat × Monitor)
  nextListener : Nat
  deriving DecidableEq, Repr

/-- The expression `redirectedTabs.get(tabId)`: the reference and the object
it points to. -/
def State.tabInfo (st : State) (tabId : Nat) : Option (Nat × TabInfo) :=
  match JsMap.get st.redirectedTabs tabId with
  | some ref =>
    match st.heap[ref]? with
    | some info => some (ref, info)
    | none => none
  | none => none

/-- The call `browser.tabs.onUpdated.removeListener(listener)`. -/
def State.removeListener (st : State) (listener : Nat) : State :=
  { st with listeners := JsMap.delete st.listeners listener }

/-- The argument of the request interceptor; `type` is `resourceType`. -/
structure Details where
  resourceType : String
  url : String
  tabId : Nat
  deriving DecidableEq, Repr

/-- What the interceptor returns and leaves behind. -/
structure Outcome where
  cancel : Bool
  state : State
  effects : List Effect
  deriving DecidableEq, Repr

/-- How a browser promise settles. Only `tabs.get` yields a value that is
read: the tab, of which `url` is used (absent without the permission). -/
inductive Settled where
  | fulfilled (tabUrl : Option String)
  | rejected
  deriving DecidableEq, Repr

/-- The messages of `browser.runtime.onMessage`. -/
inductive Message where
  | useAdminLogin (tabId : Nat)
  | useOAuth (tabId : Nat)
  | updateInstances (instances : List String)
  | other
  deriving DecidableEq, Repr

/-! ## Decision flow driver (`background.js` lines 149-279) -/

/-- The function `showPrompt(tabId, instance)`: it opens the prompt window and
attaches the fallback `catch`. -/
def showPrompt (tabId : Nat) (instanceHost : String) (st : State) :
    State × List Effect :=
  (st, [Effect.windowsCreate tabId instanceHost (Handlers.promptWindow tabId)])

/-- The function `handleOAuthLogin(tabId)` up to the `setTimeout` call. -/
def handleOAuthLogin (tabId : Nat) (st : State) : State × List Effect :=
  match st.tabInfo tabId with
  | none => (st, [])
  | some (_, tabInfo) =>
    ({ st with allowedOAuthTabs := JsSet.add st.allowedOAuthTabs tabId },
      [Effect.setTimeout (Callback.oauthNavigate tabId tabInfo.redirectUrl) 100])

/-- The function `handleAdminLogin(tabId)` up to the `tabs.update` call. -/
def handleAdminLogin (tabId : Nat) (st : State) : State × List Effect :=
  match st.tabInfo tabId with
  | none => (st, [])
  | some (ref, tabInfo) =>
    ({ st with loginInProgressTabs := JsSet.add st.loginInProgressTabs tabId },
      [Effect.tabsUpdate tabId ("https://" ++ tabInfo.instanceHost ++ "/login.do")
        (Handlers.adminNavigation tabId ref)])

/-- The listener of `browser.runtime.onMessage`. -/
def onMessage (message : Message) (st : State) : State × List Effect :=
  match message with
  | Message.useAdminLogin tabId => handleAdminLogin tabId st
  | Message.useOAuth tabId => handleOAuthLogin tabId st
  | Message.updateInstances instances => ({ st with instances := instances }, [])
  | Message.other => (st, [])

/-! ## Interception coordinator (`background.js` lines 50-147) -/

/-- The listener of `browser.webRequest.onBeforeRequest`; `now` is the value
of `Date.now()`. An `error` is an exception leaving the listener. -/
def onBeforeRequest (hostnameOf : String → Option String) (now : Nat)
    (details : Details) (st : State) : Except String Outcome :=
  if details.resourceType != "main_frame" then
    Except.ok ⟨false, st, []⟩
  else
    let url := details.url
    let tabId := details.tabId
    if JsSet.has st.loginInProgressTabs tabId then
      Except.ok ⟨false, st, []⟩
    else if JsSet.has st.allowedOAuthTabs tabId then
      Except.ok ⟨false, st, []⟩
    else if isServiceNowInstance hostnameOf st.instances url && isOAuthRedirect url then
      if JsMap.has st.redirectedTabs tabId || JsSet.has st.loginInProgressTabs tabId then
        Except.ok ⟨true, st, []⟩
      else
        match hostnameOf url with
        | none => Except.error "TypeError: invalid URL"
        | some hostname =>
          Except.ok ⟨true,
            { st with
              heap := st.heap ++ [⟨none, url, hostname, now⟩]
              redirectedTabs := JsMap.set st.redirectedTabs tabId st.heap.length },
            [Effect.tabsGet tabId (Handlers.tabLookup tabId)]⟩
    else
      Except.ok ⟨false, st, []⟩

/-- The whitelist and classifier checks of lines 63-74 taken together. -/
def qualifies (hostnameOf : String → Option String) (details : Details) (st : State) : Bool :=
  !JsSet.has st.loginInProgressTabs details.tabId &&
  !JsSet.has st.allowedOAuthTabs details.tabId &&
  isServiceNowInstance hostnameOf st.instances details.url &&
  isOAuthRedirect details.url

/-- The condition of lines 103-106: the tab shows the login page or
`about:blank`. -/
def onLoginOrBlank (originalUrl : Option String) : Bool :=
  match originalUrl with
  | some u => truthy (some u) && (includes u "/login.do" || u == "about:blank")
  | none => false

/-- The `then` handler of the tab lookup (lines 98-130). Reading
`tabInfo.instance` of an absent record throws. -/
def tabLookupThen (tabId : Nat) (tabUrl : Option String) (st : State) :
    Except String (State × List Effect) :=
  let originalUrl := tabUrl
  if onLoginOrBlank originalUrl then
    Except.ok ({ st with redirectedTabs := JsMap.delete st.redirectedTabs tabId }, [])
  else if JsSet.has st.loginInProgressTabs tabId then
    Except.ok (st, [])
  else
    match st.tabInfo tabId with
    | some (ref, tabInfo) =>
      Except.ok (showPrompt tabId tabInfo.instanceHost
        { st with heap := st.heap.set ref { tabInfo with originalUrl := originalUrl } })
    | none => Except.error "TypeError: tabInfo is undefined"

/-- The `catch` handler of the tab lookup (lines 131-134). -/
def tabLookupCatch (tabId : Nat) (st : State) : State × List Effect :=
  ({ st with redirectedTabs := JsMap.delete st.redirectedTabs tabId }, [])

/-- The chain `tabs.get(tabId).then(...).catch(...)`: the `catch` also receives
what the `then` handler throws. -/
def tabLookup (tabId : Nat) (r : Settled) (st : State) : State × List Effect :=
  match r with
  | Settled.fulfilled tabUrl =>
    match tabLookupThen tabId tabUrl st with
    | Except.ok res => res
    | Except.error _ => tabLookupCatch tabId st
  | Settled.rejected => tabLookupCatch tabId st

/-- The `catch` of `showPrompt` (lines 169-188). -/
def promptWindow (tabId : Nat) (r : Settled) (st : State) : State × List Effect :=
  match r with
  | Settled.fulfilled _ => (st, [])
  | Settled.rejected =>
    if !JsSet.has st.loginInProgressTabs tabId then handleOAuthLogin tabId st
    else (st, [])

/-! ## Login completion monitor (`background.js` lines 281-381) -/

/-- The function `monitorLoginCompletion` up to its return: it registers the
listener and arms the timeout. -/
def monitorLoginCompletion (tabId : Nat) (instanceHost : String)
    (originalUrl : Option String) (st : State) : State × List Effect :=
  ({ st with
      listeners := st.listeners ++ [(st.nextListener, ⟨tabId, instanceHost, originalUrl⟩)]
      nextListener := st.nextListener + 1 },
    [Effect.setTimeout (Callback.monitorTimeout tabId st.nextListener) (5 * 60 * 1000)])

/-- The condition of lines 291-295. -/
def onMfaPage (tabUrl : Option String) : Bool :=
  match tabUrl with
  | some u => truthy (some u) &&
      (includes u "validate_multifactor_auth_code.do" || includes u "validate_mfa_code.do")
  | none => false

/-- The condition of lines 301-308. -/
def loginComplete (instanceHost : String) (status tabUrl : Option String) : Bool :=
  match tabUrl with
  | some u => status == some "complete" && truthy (some u) &&
      !includes u "/login.do" &&
      !includes u "validate_multifactor_auth_code.do" &&
      !includes u "validate_mfa_code.do" &&
      includes u instanceHost
  | none => false

/-- The condition of lines 315-321. -/
def shouldReturn (instanceHost : String) (originalUrl tabUrl : Option String) : Bool :=
  match originalUrl with
  | some o => truthy (some o) && originalUrl != tabUrl &&
      !includes o "auth_redirect" &&
      !includes o "oauth_redirect" &&
      includes o instanceHost
  | none => false

/-- The closure `listener` of `monitorLoginCompletion` (lines 285-371);
`self` identifies the registration it removes. -/
def listener (self : Nat) (m : Monitor) (updatedTabId : Nat)
    (status tabUrl : Option String) (st : State) : State × List Effect :=
  if updatedTabId != m.tabId then (st, [])
  else if onMfaPage tabUrl then (st, [])
  else if loginComplete m.instanceHost status tabUrl then
    let st1 := st.removeListener self
    match m.originalUrl with
    | some o =>
      if shouldReturn m.instanceHost m.originalUrl tabUrl then
        (st1, [Effect.setTimeout (Callback.returnToOriginal m.tabId o) 500])
      else
        ({ st1 with redirectedTabs := JsMap.delete st1.redirectedTabs m.tabId },
          [Effect.setTimeout (Callback.loginFlagCleanup m.tabId) 3000])
    | none =>
      ({ st1 with redirectedTabs := JsMap.delete st1.redirectedTabs m.tabId },
        [Effect.setTimeout (Callback.loginFlagCleanup m.tabId) 3000])
  else (st, [])

/-- The handlers on the navigation to `login.do` (lines 232-242). -/
def adminNavigation (tabId tabInfo : Nat) (r : Settled) (st : State) :
    State × List Effect :=
  match r with
  | Settled.fulfilled _ =>
    match st.heap[tabInfo]? with
    | some info => monitorLoginCompletion tabId info.instanceHost info.originalUrl st
    | none => (st, [])
  | Settled.rejected =>
    ({ st with
        loginInProgressTabs := JsSet.delete st.loginInProgressTabs tabId
        redirectedTabs := JsMap.delete st.redirectedTabs tabId }, [])

/-- The handlers on the navigation to the redirect URL (lines 264-277). -/
def oauthNavigation (tabId : Nat) (r : Settled) (st : State) : State × List Effect :=
  match r with
  | Settled.fulfilled _ => (st, [Effect.setTimeout (Callback.oauthCleanup tabId) 10000])
  | Settled.rejected =>
    ({ st with allowedOAuthTabs := JsSet.delete st.allowedOAuthTabs tabId }, [])

/-- The handlers on the navigation back to the original URL (lines 331-354). -/
def returnNavigation (tabId : Nat) (r : Settled) (st : State) : State × List Effect :=
  match r with
  | Settled.fulfilled _ =>
    ({ st with redirectedTabs := JsMap.delete st.redirectedTabs tabId },
      [Effect.setTimeout (Callback.loginFlagCleanup tabId) 3000])
  | Settled.rejected =>
    ({ st with
        redirectedTabs := JsMap.delete st.redirectedTabs tabId
        loginInProgressTabs := JsSet.delete st.loginInProgressTabs tabId }, [])

/-- A promise settles: its handlers run. -/
def settle (k : Handlers) (r : Settled) (st : State) : State × List Effect :=
  match k with
  | Handlers.tabLookup tabId => tabLookup tabId r st
  | Handlers.promptWindow tabId => promptWindow tabId r st
  | Handlers.adminNavigation tabId tabInfo => adminNavigation tabId tabInfo r st
  | Handlers.oauthNavigation tabId => oauthNavigation tabId r st
  | Handlers.returnNavigation tabId => returnNavigation tabId r st

/-- A timer fires: its callback runs. -/
def fire (cb : Callback) (st : State) : State × List Effect :=
  match cb with
  | Callback.oauthNavigate tabId redirectUrl =>
    (st, [Effect.tabsUpdate tabId redirectUrl (Handlers.oauthNavigation tabId)])
  | Callback.oauthCleanup tabId =>
    ({ st with
        redirectedTabs := JsMap.delete st.redirectedTabs tabId
        allowedOAuthTabs := JsSet.delete st.allowedOAuthTabs tabId }, [])
  | Callback.returnToOriginal tabId originalUrl =>
    (st, [Effect.tabsUpdate tabId originalUrl (Handlers.returnNavigation tabId)])
  | Callback.loginFlagCleanup tabId =>
    ({ st with loginInProgressTabs := JsSet.delete st.loginInProgressTabs tabId }, [])
  | Callback.monitorTimeout tabId self =>
    let st1 := st.removeListener self
    ({ st1 with loginInProgressTabs := JsSet.delete st1.loginInProgressTabs tabId }, [])

/-! ## Tab closure cleanup (`background.js` lines 383-395) -/

/-- The listener of `browser.tabs.onRemoved`. -/
def onRemoved (tabId : Nat) (st : State) : State × List Effect :=
  ({ st with
      redirectedTabs := JsMap.delete st.redirectedTabs tabId
      allowedOAuthTabs := JsSet.delete st.allowedOAuthTabs tabId
      loginInProgressTabs := JsSet.delete st.loginInProgressTabs tabId }, [])

/-! ## The event loop -/

/-- The event `browser.tabs.onUpdated`: every listener registered when the
event is dispatched is called, in registration order. -/
def onUpdated (updatedTabId : Nat) (status tabUrl : Option String) (st : State) :
    State × List Effect :=
  st.listeners.foldl
    (fun acc l =>
      let res := listener l.1 l.2 updatedTabId status tabUrl acc.1
      (res.1, acc.2 ++ res.2))
    (st, [])

/-- What the browser can deliver to the background script. -/
inductive Event where
  | request (now : Nat) (details : Details)
  | message (message : Message)
  | tabUpdated (tabId : Nat) (status tabUrl : Option String)
  | tabRemoved (tabId : Nat)
  | settled (k : Handlers) (r : Settled)
  | timer (callback : Callback)
  deriving DecidableEq, Repr

/-- One turn of the event loop. An exception in the interceptor leaves the
state as it was (the only throwing expression precedes every assignment). -/
def step (hostnameOf : String → Option String) (e : Event) (st : State) :
    State × List Effect :=
  match e with
  | Event.request now details =>
    match onBeforeRequest hostnameOf now details st with
    | Except.ok out => (out.state, out.effects)
    | Except.error _ => (st, [])
  | Event.message message => onMessage message st
  | Event.tabUpdated tabId status tabUrl => onUpdated tabId status tabUrl st
  | Event.tabRemoved tabId => onRemoved tabId st
  | Event.settled k r => settle k r st
  | Event.timer callback => fire callback st

/-- The state after a sequence of turns. -/
def run (hostnameOf : String → Option String) (es : List Event) (st : State) : State :=
  es.foldl (fun s e => (step hostnameOf e s).1) st

/-- The map `redirectedTabs` holds at most one entry per tab identifier. -/
def State.oneRecordPerTab (st : State) : Prop :=
  (st.redirectedTabs.map Prod.fst).Nodup

/-- Every reference stored in `redirectedTabs` points into the heap. -/
def State.refsValid (st : State) : Prop :=
  ∀ e ∈ st.redirectedTabs, e.2 < st.heap.length

/-- The tab a pair of promise handlers works for. -/
def Handlers.tabId : Handlers → Nat
  | Handlers.tabLookup tabId => tabId
  | Handlers.promptWindow tabId => tabId
  | Handlers.adminNavigation tabId _ => tabId
  | Handlers.oauthNavigation tabId => tabId
  | Handlers.returnNavigation tabId => tabId

/-- The tab a timer callback works for. -/
def Callback.tabId : Callback → Nat
  | Callback.oauthNavigate tabId _ => tabId
  | Callback.oauthCleanup tabId => tabId
  | Callback.returnToOriginal tabId _ => tabId
  | Callback.loginFlagCleanup tabId => tabId
  | Callback.monitorTimeout tabId _ => tabId

/-- The tab of the continuation a browser request leaves pending. -/
def Effect.pendingTab : Effect → Nat
  | Effect.tabsGet _ k => k.tabId
  | Effect.tabsUpdate _ _ k => k.tabId
  | Effect.windowsCreate _ _ k => k.tabId
  | Effect.setTimeout callback _ => callback.tabId

/-- The tab is in none of the three collections. -/
def State.tabAbsent (st : State) (tabId : Nat) : Prop :=
  JsMap.has st.redirectedTabs tabId = false ∧
  JsSet.has st.allowedOAuthTabs tabId = false ∧
  JsSet.has st.loginInProgressTabs tabId = false

/-- The event is a continuation, a timer or a prompt message of the tab:
what can still be pending for a tab when it closes. -/
def Event.pendingFor (tabId : Nat) : Event → Bool
  | Event.settled k _ => k.tabId == tabId
  | Event.timer callback => callback.tabId == tabId
  | Event.message (Message.useAdminLogin t) => t == tabId
  | Event.message (Message.useOAuth t) => t == tabId
  | _ => false

/-- The event is a request of the tab. -/
def Event.isRequestOn (tabId : Nat) : Event → Bool
  | Event.request _ details => details.tabId == tabId
  | _ => false

/-! ## Sample data for the worked examples -/

/-- A reader for addresses of the plain form `http://host/path` or
`https://host/path`, the host made of lower-case letters, digits, dots and
hyphens. It stands in for the browser's URL parser in the worked examples and
agrees with it on the addresses used there; every other string is rejected. -/
def plainHostname (url : String) : Option String :=
  let cs := url.data
  let rest :=
    if "https://".data.isPrefixOf cs then some (cs.drop 8)
    else if "http://".data.isPrefixOf cs then some (cs.drop 7)
    else none
  match rest with
  | none => none
  | some r =>
    let host := r.takeWhile (fun c => c != '/')
    if host.isEmpty || !host.all (fun c => c.isLower || c.isDigit || c == '.' || c == '-')
    then none
    else some (String.mk host)

/-- The state right after start-up with one registered instance. -/
def sampleStart : State :=
  { heap := [], redirectedTabs := [], allowedOAuthTabs := [], loginInProgressTabs := [],
    instances := ["service-now.com"], listeners := [], nextListener := 0 }

/-- The state after tab 7 was intercepted on its way to `oauth_redirect.do`
at time 1000, before the tab lookup has answered. -/
def sampleIntercepted : State :=
  { sampleStart with
    heap := [⟨none, "https://foo.service-now.com/oauth_redirect.do", "foo.service-now.com", 1000⟩]
    redirectedTabs := [(7, 0)] }

/-- The state once the lookup has answered that tab 7 shows the incident
list: the record knows its original address and the prompt is open. -/
def samplePrompted : State :=
  { sampleStart with
    heap := [⟨some "https://foo.service-now.com/incident_list.do",
      "https://foo.service-now.com/oauth_redirect.do", "foo.service-now.com", 1000⟩]
    redirectedTabs := [(7, 0)] }

/-- The closure watching tab 7 during the admin login. -/
def sampleMonitor : Monitor :=
  ⟨7, "foo.service-now.com", some "https://foo.service-now.com/incident_list.do"⟩

/-- The state while tab 7 is on the login page and its monitor is registered. -/
def sampleMonitoring : State :=
  { samplePrompted with
    loginInProgressTabs := [7]
    listeners := [(0, sampleMonitor)]
    nextListener := 1 }

/-- A main-frame request. -/
def mainFrame (url : String) (tabId : Nat) : Details :=
  ⟨"main_frame", url, tabId⟩

/-! ## Facts about substring search -/

theorem includesChars_iff (s pat : List Char) :
    includesChars s pat = true ↔ pat <:+: s := by
  induction s with
  | nil =>
    simp [includesChars, List.isEmpty_iff]
  | cons c cs ih =>
    simp only [includesChars, Bool.or_eq_true, ih, List.isPrefixOf_iff_prefix]
    rw [List.infix_cons_iff]

theorem includes_iff (s pat : String) :
    includes s pat = true ↔ pat.data <:+: s.data :=
  includesChars_iff s.data pat.data

/-! ## Facts about the tab state store -/

theorem JsMap.has_eq_false_iff {α : Type} (m : List (Nat × α)) (key : Nat) :
    JsMap.has m key = false ↔ ∀ e ∈ m, e.1 ≠ key := by
  induction m with
  | nil => simp [JsMap.has, JsMap.get]
  | cons e m ih =>
    obtain ⟨k, v⟩ := e
    simp only [JsMap.has, JsMap.get] at ih ⊢
    by_cases hk : key = k
    · subst hk
      simp [List.lookup]
    · have hk2 : (key == k) = false := by simpa using hk
      simp only [List.lookup, hk2, ih, List.mem_cons, forall_eq_or_imp]
      constructor
      · intro h
        exact ⟨fun h2 => hk h2.symm, h⟩
      · intro h
        exact h.2

theorem JsMap.delete_of_not_has {α : Type} (m : List (Nat × α)) (key : Nat)
    (h : JsMap.has m key = false) : JsMap.delete m key = m := by
  rw [JsMap.has_eq_false_iff] at h
  unfold JsMap.delete
  rw [List.filter_eq_self]
  intro e he
  simpa using h e he

theorem JsMap.has_delete_self {α : Type} (m : List (Nat × α)) (key : Nat) :
    JsMap.has (JsMap.delete m key) key = false := by
  rw [JsMap.has_eq_false_iff]
  intro e he
  unfold JsMap.delete at he
  rw [List.mem_filter] at he
  simpa using he.2

theorem JsMap.has_delete_of_not_has {α : Type} (m : List (Nat × α)) (key other : Nat)
    (h : JsMap.has m key = false) : JsMap.has (JsMap.delete m other) key = false := by
  rw [JsMap.has_eq_false_iff] at h ⊢
  intro e he
  unfold JsMap.delete at he
  rw [List.mem_filter] at he
  exact h e he.1

theorem JsMap.get_append_new {α : Type} (m : List (Nat × α)) (key : Nat) (value : α)
    (h : JsMap.has m key = false) : JsMap.get (m ++ [(key, value)]) key = some value := by
  induction m with
  | nil => simp [JsMap.get, List.lookup]
  | cons e m ih =>
    obtain ⟨k, v⟩ := e
    have h2 := (JsMap.has_eq_false_iff _ _).mp h
    have hk : (key == k) = false := by
      have := h2 (k, v) (List.mem_cons_self _ _)
      simpa using fun h3 => this h3.symm
    have hm : JsMap.has m key = false := by
      rw [JsMap.has_eq_false_iff]
      intro e he
      exact h2 e (List.mem_cons_of_mem _ he)
    simp only [JsMap.get] at ih ⊢
    simp only [List.cons_append, List.lookup, hk]
    exact ih hm

theorem JsMap.keys_delete_nodup {α : Type} (m : List (Nat × α)) (key : Nat)
    (h : (m.map Prod.fst).Nodup) : ((JsMap.delete m key).map Prod.fst).Nodup := by
  unfold JsMap.delete
  exact h.sublist ((List.filter_sublist m).map Prod.fst)

theorem JsMap.keys_append_nodup {α : Type} (m : List (Nat × α)) (key : Nat) (value : α)
    (hnew : JsMap.has m key = false) (h : (m.map Prod.fst).Nodup) :
    ((m ++ [(key, value)]).map Prod.fst).Nodup := by
  rw [JsMap.has_eq_false_iff] at hnew
  rw [List.map_append, List.nodup_append]
  refine ⟨h, by simp, ?_⟩
  intro a ha hb
  simp only [List.map_cons, List.map_nil, List.mem_singleton] at hb
  rw [List.mem_map] at ha
  obtain ⟨e, he, rfl⟩ := ha
  exact hnew e he hb

theorem JsSet.not_has_iff (s : List Nat) (value : Nat) :
    JsSet.has s value = false ↔ value ∉ s := by
  simp [JsSet.has]

theorem JsSet.delete_absent (s : List Nat) (value : Nat)
    (h : JsSet.has s value = false) : JsSet.delete s value = s := by
  rw [JsSet.not_has_iff] at h
  unfold JsSet.delete
  rw [List.filter_eq_self]
  intro x hx
  have : x ≠ value := fun h2 => h (h2 ▸ hx)
  simpa using this

theorem JsSet.not_has_delete (s : List Nat) (value : Nat) :
    JsSet.has (JsSet.delete s value) value = false := by
  rw [JsSet.not_has_iff]
  simp [JsSet.delete]

theorem JsSet.not_has_after_delete (s : List Nat) (value other : Nat)
    (h : JsSet.has s value = false) : JsSet.has (JsSet.delete s other) value = false := by
  rw [JsSet.not_has_iff] at h ⊢
  intro hmem
  unfold JsSet.delete at hmem
  exact h (List.mem_filter.mp hmem).1

theorem JsSet.has_add_self (s : List Nat) (value : Nat) :
    JsSet.has (JsSet.add s value) value = true := by
  unfold JsSet.add
  by_cases h : JsSet.has s value = true
  · simp [h]
  · simp only [h, if_false]
    simp [JsSet.has]

/-! ## Navigation classifier -/

theorem isOAuthRedirect_iff_exists (ps : List RegExp) (url : String) :
    ps.any (fun pattern => pattern.test url) = true ↔
      ∃ p ∈ ps, p.literal.data <:+: url.data := by
  simp [List.any_eq_true, RegExp.test, includes_iff]

/-- C4: `isOAuthRedirect(url)` is true exactly when `url` contains one of the
five literal patterns; it accepts an address of each of the five classes,
rejects `https://foo.service-now.com/home.do`, and testing the patterns in any
other order gives the same answer. -/
theorem isOAuthRedirect_spec (url : String) :
    (isOAuthRedirect url = true ↔
      ("auth_redirect.do".data <:+: url.data ∨ "oauth_redirect.do".data <:+: url.data ∨
        "navpage.do".data <:+: url.data ∨
        "login.microsoftonline.com".data <:+: url.data ∨ "sso.do".data <:+: url.data)) ∧
    (∀ ps : List RegExp, ps.Perm oauthPatterns →
      ps.any (fun pattern => pattern.test url) = isOAuthRedirect url) ∧
    isOAuthRedirect "https://foo.service-now.com/auth_redirect.do" = true ∧
    isOAuthRedirect "https://foo.service-now.com/oauth_redirect.do" = true ∧
    isOAuthRedirect "https://foo.service-now.com/navpage.do" = true ∧
    isOAuthRedirect "https://login.microsoftonline.com/common/oauth2/authorize" = true ∧
    isOAuthRedirect "https://foo.service-now.com/sso.do" = true ∧
    isOAuthRedirect "https://foo.service-now.com/home.do" = false := by
  refine ⟨?_, ?_, by decide, by decide, by decide, by decide, by decide, by decide⟩
  · unfold isOAuthRedirect
    rw [isOAuthRedirect_iff_exists]
    simp [oauthPatterns]
  · intro ps hperm
    unfold isOAuthRedirect
    rw [Bool.eq_iff_iff, isOAuthRedirect_iff_exists, isOAuthRedirect_iff_exists]
    constructor
    · rintro ⟨p, hp, h⟩
      exact ⟨p, hperm.mem_iff.mp hp, h⟩
    · rintro ⟨p, hp, h⟩
      exact ⟨p, hperm.mem_iff.mpr hp, h⟩

/-- C4, worked example: the reversed pattern list answers like
`isOAuthRedirect` on a `navpage.do` address. -/
theorem isOAuthRedirect_spec_witness :
    oauthPatterns.reverse.Perm oauthPatterns ∧
    oauthPatterns.reverse.any
        (fun pattern => pattern.test "https://foo.service-now.com/navpage.do") =
      isOAuthRedirect "https://foo.service-now.com/navpage.do" :=
  ⟨List.reverse_perm oauthPatterns,
    (isOAuthRedirect_spec "https://foo.service-now.com/navpage.do").2.1
      oauthPatterns.reverse (List.reverse_perm oauthPatterns)⟩

/-- C3: `isServiceNowInstance(url)` is true exactly when `url` parses and its
hostname contains a registry entry; it is false when `url` does not parse;
and two addresses with the same hostname get the same answer. -/
theorem isServiceNowInstance_spec (hostnameOf : String → Option String)
    (instances : List String) (url : String) :
    (isServiceNowInstance hostnameOf instances url = true ↔
      ∃ hostname, hostnameOf url = some hostname ∧
        ∃ inst ∈ instances, inst.data <:+: hostname.data) ∧
    (hostnameOf url = none → isServiceNowInstance hostnameOf instances url = false) ∧
    (∀ url2 : String, hostnameOf url2 = hostnameOf url →
      isServiceNowInstance hostnameOf instances url2 =
        isServiceNowInstance hostnameOf instances url) := by
  refine ⟨?_, ?_, ?_⟩
  · unfold isServiceNowInstance
    cases h : hostnameOf url with
    | none => simp
    | some hostname => simp [List.any_eq_true, includes_iff]
  · intro h
    simp [isServiceNowInstance, h]
  · intro url2 h
    simp [isServiceNowInstance, h]

/-- C3, worked example: a string that is no address is rejected, and two
addresses of one host that differ in scheme and path are classified alike. -/
theorem isServiceNowInstance_spec_witness :
    plainHostname "not a url" = none ∧
    isServiceNowInstance plainHostname ["service-now.com"] "not a url" = false ∧
    plainHostname "http://foo.service-now.com/home.do" =
      plainHostname "https://foo.service-now.com/sso.do" ∧
    isServiceNowInstance plainHostname ["service-now.com"]
        "http://foo.service-now.com/home.do" =
      isServiceNowInstance plainHostname ["service-now.com"]
        "https://foo.service-now.com/sso.do" :=
  ⟨by decide,
    (isServiceNowInstance_spec plainHostname ["service-now.com"] "not a url").2.1 (by decide),
    by decide,
    (isServiceNowInstance_spec plainHostname ["service-now.com"]
      "https://foo.service-now.com/sso.do").2.2 "http://foo.service-now.com/home.do"
      (by decide)⟩

/-! ## Interception coordinator -/

theorem onBeforeRequest_allow (hostnameOf : String → Option String) (now : Nat)
    (details : Details) (st : State) (hmain : details.resourceType = "main_frame")
    (hq : qualifies hostnameOf details st = false) :
    onBeforeRequest hostnameOf now details st = Except.ok ⟨false, st, []⟩ := by
  unfold onBeforeRequest
  unfold qualifies at hq
  simp only [hmain, bne_self_eq_false, Bool.false_eq_true, if_false]
  cases hl : JsSet.has st.loginInProgressTabs details.tabId
  · cases ha : JsSet.has st.allowedOAuthTabs details.tabId
    · simp only [hl, ha, Bool.not_false, Bool.true_and] at hq
      simp [hq]
    · simp
  · simp

theorem onBeforeRequest_duplicate (hostnameOf : String → Option String) (now : Nat)
    (details : Details) (st : State) (hmain : details.resourceType = "main_frame")
    (hq : qualifies hostnameOf details st = true)
    (hrec : JsMap.has st.redirectedTabs details.tabId = true) :
    onBeforeRequest hostnameOf now details st = Except.ok ⟨true, st, []⟩ := by
  unfold onBeforeRequest
  unfold qualifies at hq
  simp only [Bool.and_eq_true, Bool.not_eq_true'] at hq
  obtain ⟨⟨⟨hl, ha⟩, hsn⟩, ho⟩ := hq
  simp [hmain, hl, ha, hsn, ho, hrec]

theorem onBeforeRequest_fresh (hostnameOf : String → Option String) (now : Nat)
    (details : Details) (st : State) (hmain : details.resourceType = "main_frame")
    (hq : qualifies hostnameOf details st = true)
    (hrec : JsMap.has st.redirectedTabs details.tabId = false) :
    ∃ hostname, hostnameOf details.url = some hostname ∧
      onBeforeRequest hostnameOf now details st =
        Except.ok ⟨true,
          { st with
            heap := st.heap ++ [⟨none, details.url, hostname, now⟩]
            redirectedTabs := st.redirectedTabs ++ [(details.tabId, st.heap.length)] },
          [Effect.tabsGet details.tabId (Handlers.tabLookup details.tabId)]⟩ := by
  unfold onBeforeRequest
  unfold qualifies at hq
  simp only [Bool.and_eq_true, Bool.not_eq_true'] at hq
  obtain ⟨⟨⟨hl, ha⟩, hsn⟩, ho⟩ := hq
  have hsn2 := hsn
  unfold isServiceNowInstance at hsn2
  cases hh : hostnameOf details.url with
  | none => simp [hh] at hsn2
  | some hostname =>
    refine ⟨hostname, rfl, ?_⟩
    simp [hmain, hl, ha, hsn, ho, hrec, hh, JsMap.set]

/-- C1: for a main-frame request the interceptor returns, and it cancels
exactly when the tab is in neither whitelist and the address is an OAuth
redirect on a registered instance; when it does not cancel it changes
nothing and asks nothing of the browser. -/
theorem onBeforeRequest_cancel (hostnameOf : String → Option String) (now : Nat)
    (details : Details) (st : State) (hmain : details.resourceType = "main_frame") :
    ∃ out, onBeforeRequest hostnameOf now details st = Except.ok out ∧
      (out.cancel = true ↔
        (JsSet.has st.loginInProgressTabs details.tabId = false ∧
          JsSet.has st.allowedOAuthTabs details.tabId = false ∧
          isServiceNowInstance hostnameOf st.instances details.url = true ∧
          isOAuthRedirect details.url = true)) ∧
      (out.cancel = false → out.state = st ∧ out.effects = []) := by
  have hqual : qualifies hostnameOf details st = true ↔
      (JsSet.has st.loginInProgressTabs details.tabId = false ∧
        JsSet.has st.allowedOAuthTabs details.tabId = false ∧
        isServiceNowInstance hostnameOf st.instances details.url = true ∧
        isOAuthRedirect details.url = true) := by
    simp [qualifies, and_assoc]
  rw [← hqual]
  cases hq : qualifies hostnameOf details st
  · exact ⟨_, onBeforeRequest_allow hostnameOf now details st hmain hq, by simp, by simp⟩
  · cases hrec : JsMap.has st.redirectedTabs details.tabId
    · obtain ⟨hostname, _, h⟩ := onBeforeRequest_fresh hostnameOf now details st hmain hq hrec
      exact ⟨_, h, by simp, by simp⟩
    · exact ⟨_, onBeforeRequest_duplicate hostnameOf now details st hmain hq hrec,
        by simp, by simp⟩

/-- C1, worked example: an OAuth redirect on a registered instance in a tab
that is in no whitelist is cancelled. -/
theorem onBeforeRequest_cancel_witness :
    (mainFrame "https://foo.service-now.com/oauth_redirect.do" 7).resourceType = "main_frame" ∧
    ∃ out, onBeforeRequest plainHostname 1000
        (mainFrame "https://foo.service-now.com/oauth_redirect.do" 7) sampleStart =
          Except.ok out ∧
      (out.cancel = true ↔
        (JsSet.has sampleStart.loginInProgressTabs
            (mainFrame "https://foo.service-now.com/oauth_redirect.do" 7).tabId = false ∧
          JsSet.has sampleStart.allowedOAuthTabs
            (mainFrame "https://foo.service-now.com/oauth_redirect.do" 7).tabId = false ∧
          isServiceNowInstance plainHostname sampleStart.instances
            (mainFrame "https://foo.service-now.com/oauth_redirect.do" 7).url = true ∧
          isOAuthRedirect (mainFrame "https://foo.service-now.com/oauth_redirect.do" 7).url
            = true)) ∧
      (out.cancel = false → out.state = sampleStart ∧ out.effects = []) :=
  ⟨rfl, onBeforeRequest_cancel plainHostname 1000
    (mainFrame "https://foo.service-now.com/oauth_redirect.do" 7) sampleStart rfl⟩


/-! ## One record per tab -/

theorem listener_oneRecordPerTab (self : Nat) (m : Monitor) (updatedTabId : Nat)
    (status tabUrl : Option String) (st : State) (h : st.oneRecordPerTab) :
    (listener self m updatedTabId status tabUrl st).1.oneRecordPerTab := by
  unfold listener
  split
  · exact h
  split
  · exact h
  split
  · split
    · split
      · exact h
      · exact JsMap.keys_delete_nodup _ _ h
    · exact JsMap.keys_delete_nodup _ _ h
  · exact h

theorem onUpdated_oneRecordPerTab (updatedTabId : Nat) (status tabUrl : Option String)
    (st : State) (h : st.oneRecordPerTab) :
    (onUpdated updatedTabId status tabUrl st).1.oneRecordPerTab := by
  unfold onUpdated
  generalize st.listeners = ls
  suffices hgen : ∀ (acc : State × List Effect), acc.1.oneRecordPerTab →
      (ls.foldl (fun acc l =>
        let res := listener l.1 l.2 updatedTabId status tabUrl acc.1
        (res.1, acc.2 ++ res.2)) acc).1.oneRecordPerTab from hgen (st, []) h
  induction ls with
  | nil => intro acc hacc; exact hacc
  | cons l ls ih =>
    intro acc hacc
    rw [List.foldl_cons]
    exact ih _ (listener_oneRecordPerTab _ _ _ _ _ _ hacc)

theorem tabLookup_fulfilled (tabId : Nat) (tabUrl : Option String) (st : State) :
    tabLookup tabId (Settled.fulfilled tabUrl) st =
      if onLoginOrBlank tabUrl then
        ({ st with redirectedTabs := JsMap.delete st.redirectedTabs tabId }, [])
      else if JsSet.has st.loginInProgressTabs tabId then (st, [])
      else
        match st.tabInfo tabId with
        | some (ref, tabInfo) =>
          ({ st with heap := st.heap.set ref { tabInfo with originalUrl := tabUrl } },
            [Effect.windowsCreate tabId tabInfo.instanceHost (Handlers.promptWindow tabId)])
        | none => ({ st with redirectedTabs := JsMap.delete st.redirectedTabs tabId }, []) := by
  simp only [tabLookup, tabLookupThen, tabLookupCatch, showPrompt]
  by_cases h1 : onLoginOrBlank tabUrl = true
  · simp [h1]
  by_cases h2 : JsSet.has st.loginInProgressTabs tabId = true
  · simp [h1, h2]
  simp only [h1, h2, if_false]
  cases st.tabInfo tabId with
  | none => rfl
  | some p => rfl

theorem settle_oneRecordPerTab (k : Handlers) (r : Settled) (st : State)
    (h : st.oneRecordPerTab) : (settle k r st).1.oneRecordPerTab := by
  cases k with
  | tabLookup tabId =>
    cases r with
    | fulfilled tabUrl =>
      simp only [settle, tabLookup_fulfilled]
      repeat' split
      all_goals first
        | exact h
        | exact JsMap.keys_delete_nodup _ _ h
    | rejected => exact JsMap.keys_delete_nodup _ _ h
  | promptWindow tabId =>
    cases r <;> simp only [settle, promptWindow, handleOAuthLogin] <;>
      (repeat' split) <;> exact h
  | adminNavigation tabId tabInfo =>
    cases r <;> simp only [settle, adminNavigation, monitorLoginCompletion] <;>
      (repeat' split) <;>
      first
        | exact h
        | exact JsMap.keys_delete_nodup _ _ h
  | oauthNavigation tabId =>
    cases r <;> simp only [settle, oauthNavigation] <;> exact h
  | returnNavigation tabId =>
    cases r <;> simp only [settle, returnNavigation] <;>
      exact JsMap.keys_delete_nodup _ _ h

theorem fire_oneRecordPerTab (cb : Callback) (st : State)
    (h : st.oneRecordPerTab) : (fire cb st).1.oneRecordPerTab := by
  cases cb <;> simp only [fire, State.removeListener] <;>
    first
      | exact h
      | exact JsMap.keys_delete_nodup _ _ h

theorem onMessage_oneRecordPerTab (message : Message) (st : State)
    (h : st.oneRecordPerTab) : (onMessage message st).1.oneRecordPerTab := by
  cases message <;> simp only [onMessage, handleAdminLogin, handleOAuthLogin] <;>
    (repeat' split) <;> exact h

theorem step_oneRecordPerTab (hostnameOf : String → Option String) (e : Event)
    (st : State) (h : st.oneRecordPerTab) : (step hostnameOf e st).1.oneRecordPerTab := by
  cases e with
  | request now details =>
    simp only [step]
    by_cases hmain : details.resourceType = "main_frame"
    · cases hq : qualifies hostnameOf details st
      · rw [onBeforeRequest_allow hostnameOf now details st hmain hq]
        exact h
      · cases hrec : JsMap.has st.redirectedTabs details.tabId
        · obtain ⟨hostname, _, hres⟩ :=
            onBeforeRequest_fresh hostnameOf now details st hmain hq hrec
          rw [hres]
          exact JsMap.keys_append_nodup _ _ _ hrec h
        · rw [onBeforeRequest_duplicate hostnameOf now details st hmain hq hrec]
          exact h
    · have hne : (details.resourceType != "main_frame") = true := by simpa using hmain
      simp only [onBeforeRequest, hne, if_true]
      exact h
  | message message => exact onMessage_oneRecordPerTab message st h
  | tabUpdated tabId status tabUrl => exact onUpdated_oneRecordPerTab tabId status tabUrl st h
  | tabRemoved tabId => exact JsMap.keys_delete_nodup _ _ h
  | settled k r => exact settle_oneRecordPerTab k r st h
  | timer callback => exact fire_oneRecordPerTab callback st h

theorem run_oneRecordPerTab (hostnameOf : String → Option String) (es : List Event)
    (st : State) (h : st.oneRecordPerTab) : (run hostnameOf es st).oneRecordPerTab := by
  unfold run
  induction es generalizing st with
  | nil => exact h
  | cons e es ih =>
    rw [List.foldl_cons]
    exact ih _ (step_oneRecordPerTab hostnameOf e st h)

theorem qualifies_iff (hostnameOf : String → Option String) (details : Details) (st : State) :
    qualifies hostnameOf details st = true ↔
      (JsSet.has st.loginInProgressTabs details.tabId = false ∧
        JsSet.has st.allowedOAuthTabs details.tabId = false ∧
        isServiceNowInstance hostnameOf st.instances details.url = true ∧
        isOAuthRedirect details.url = true) := by
  simp [qualifies, and_assoc]

theorem not_main_frame (hostnameOf : String → Option String) (now : Nat)
    (details : Details) (st : State) (hmain : details.resourceType ≠ "main_frame") :
    onBeforeRequest hostnameOf now details st = Except.ok ⟨false, st, []⟩ := by
  have hne : (details.resourceType != "main_frame") = true := by simpa using hmain
  simp only [onBeforeRequest, hne, if_true]

theorem tabInfo_after_insert (st : State) (tabId : Nat) (info : TabInfo)
    (hrec : JsMap.has st.redirectedTabs tabId = false) :
    State.tabInfo
      { st with
        heap := st.heap ++ [info]
        redirectedTabs := st.redirectedTabs ++ [(tabId, st.heap.length)] } tabId =
      some (st.heap.length, info) := by
  simp [State.tabInfo, JsMap.get_append_new _ _ _ hrec]

/-- C2: a qualifying navigation on a tab that already has a record is
cancelled with the state untouched (so the record keeps its `redirectUrl`,
`instance` and `originalUrl`) and with nothing asked of the browser (no tab
lookup, no prompt); the interceptor changes `redirectedTabs` only by adding,
for a tab without a record, one record with `originalUrl = null` and
`redirectUrl` the request address; and a map with one entry per tab keeps
one entry per tab through every sequence of events. -/
theorem onBeforeRequest_one_record (hostnameOf : String → Option String) (now : Nat)
    (details : Details) (st : State) :
    (details.resourceType = "main_frame" →
      JsSet.has st.loginInProgressTabs details.tabId = false →
      JsSet.has st.allowedOAuthTabs details.tabId = false →
      isServiceNowInstance hostnameOf st.instances details.url = true →
      isOAuthRedirect details.url = true →
      JsMap.has st.redirectedTabs details.tabId = true →
      onBeforeRequest hostnameOf now details st = Except.ok ⟨true, st, []⟩) ∧
    (∀ out, onBeforeRequest hostnameOf now details st = Except.ok out →
      out.state.redirectedTabs ≠ st.redirectedTabs →
      JsMap.has st.redirectedTabs details.tabId = false ∧
      ∃ hostname ref,
        out.state.redirectedTabs = st.redirectedTabs ++ [(details.tabId, ref)] ∧
        out.state.tabInfo details.tabId =
          some (ref, ⟨none, details.url, hostname, now⟩)) ∧
    (st.oneRecordPerTab → ∀ es : List Event, (run hostnameOf es st).oneRecordPerTab) := by
  refine ⟨?_, ?_, fun h es => run_oneRecordPerTab hostnameOf es st h⟩
  · intro hmain hl ha hsn ho hrec
    exact onBeforeRequest_duplicate hostnameOf now details st hmain
      ((qualifies_iff hostnameOf details st).mpr ⟨hl, ha, hsn, ho⟩) hrec
  · intro out hout hchg
    by_cases hmain : details.resourceType = "main_frame"
    · cases hq : qualifies hostnameOf details st
      · rw [onBeforeRequest_allow hostnameOf now details st hmain hq] at hout
        cases hout
        exact absurd rfl hchg
      · cases hrec : JsMap.has st.redirectedTabs details.tabId
        · obtain ⟨hostname, _, hres⟩ :=
            onBeforeRequest_fresh hostnameOf now details st hmain hq hrec
          rw [hres] at hout
          cases hout
          exact ⟨rfl, hostname, st.heap.length, rfl, tabInfo_after_insert st _ _ hrec⟩
        · rw [onBeforeRequest_duplicate hostnameOf now details st hmain hq hrec] at hout
          cases hout
          exact absurd rfl hchg
    · rw [not_main_frame hostnameOf now details st hmain] at hout
      cases hout
      exact absurd rfl hchg

/-- C2, worked example: tab 7 is intercepted on `oauth_redirect.do`; a second
navigation to `sso.do` before the lookup answers is cancelled and changes
nothing, and the two requests leave one record for the tab. -/
theorem onBeforeRequest_one_record_witness :
    run plainHostname
        [Event.request 1000 (mainFrame "https://foo.service-now.com/oauth_redirect.do" 7)]
        sampleStart = sampleIntercepted ∧
    onBeforeRequest plainHostname 2000 (mainFrame "https://foo.service-now.com/sso.do" 7)
        sampleIntercepted = Except.ok ⟨true, sampleIntercepted, []⟩ ∧
    (run plainHostname
        [Event.request 1000 (mainFrame "https://foo.service-now.com/oauth_redirect.do" 7),
          Event.request 2000 (mainFrame "https://foo.service-now.com/sso.do" 7)]
        sampleStart).oneRecordPerTab :=
  ⟨by decide,
    (onBeforeRequest_one_record plainHostname 2000
      (mainFrame "https://foo.service-now.com/sso.do" 7) sampleIntercepted).1
      rfl (by decide) (by decide) (by decide) (by decide) (by decide),
    (onBeforeRequest_one_record plainHostname 0
      (mainFrame "https://foo.service-now.com/sso.do" 7) sampleStart).2.2
      List.nodup_nil _⟩

/-! ## References stay inside the heap -/

theorem refsValid_of_deleted (st after : State) (h : st.refsValid)
    (hheap : after.heap.length = st.heap.length)
    (h1 : after.redirectedTabs = st.redirectedTabs ∨
      ∃ k, after.redirectedTabs = JsMap.delete st.redirectedTabs k) :
    after.refsValid := by
  intro e he
  rw [hheap]
  rcases h1 with h1 | ⟨k, h1⟩
  · rw [h1] at he
    exact h e he
  · rw [h1] at he
    unfold JsMap.delete at he
    exact h e (List.mem_filter.mp he).1

theorem listener_refsValid (self : Nat) (m : Monitor) (updatedTabId : Nat)
    (status tabUrl : Option String) (st : State) (h : st.refsValid) :
    (listener self m updatedTabId status tabUrl st).1.refsValid := by
  unfold listener
  split
  · exact h
  split
  · exact h
  split
  · split
    · split
      · exact h
      · exact refsValid_of_deleted st _ h rfl (Or.inr ⟨_, rfl⟩)
    · exact refsValid_of_deleted st _ h rfl (Or.inr ⟨_, rfl⟩)
  · exact h

theorem onUpdated_refsValid (updatedTabId : Nat) (status tabUrl : Option String)
    (st : State) (h : st.refsValid) :
    (onUpdated updatedTabId status tabUrl st).1.refsValid := by
  unfold onUpdated
  generalize st.listeners = ls
  suffices hgen : ∀ (acc : State × List Effect), acc.1.refsValid →
      (ls.foldl (fun acc l =>
        let res := listener l.1 l.2 updatedTabId status tabUrl acc.1
        (res.1, acc.2 ++ res.2)) acc).1.refsValid from hgen (st, []) h
  induction ls with
  | nil => intro acc hacc; exact hacc
  | cons l ls ih =>
    intro acc hacc
    rw [List.foldl_cons]
    exact ih _ (listener_refsValid _ _ _ _ _ _ hacc)

theorem settle_refsValid (k : Handlers) (r : Settled) (st : State) (h : st.refsValid) :
    (settle k r st).1.refsValid := by
  cases k with
  | tabLookup tabId =>
    cases r with
    | fulfilled tabUrl =>
      simp only [settle, tabLookup_fulfilled]
      repeat' split
      all_goals first
        | exact h
        | exact refsValid_of_deleted st _ h rfl (Or.inr ⟨_, rfl⟩)
        | exact refsValid_of_deleted st _ h (List.length_set _ _ _) (Or.inl rfl)
    | rejected => exact refsValid_of_deleted st _ h rfl (Or.inr ⟨_, rfl⟩)
  | promptWindow tabId =>
    cases r <;> simp only [settle, promptWindow, handleOAuthLogin] <;>
      (repeat' split) <;> exact h
  | adminNavigation tabId tabInfo =>
    cases r <;> simp only [settle, adminNavigation, monitorLoginCompletion] <;>
      (repeat' split) <;>
      first
        | exact h
        | exact refsValid_of_deleted st _ h rfl (Or.inr ⟨_, rfl⟩)
  | oauthNavigation tabId =>
    cases r <;> simp only [settle, oauthNavigation] <;> exact h
  | returnNavigation tabId =>
    cases r <;> simp only [settle, returnNavigation] <;>
      exact refsValid_of_deleted st _ h rfl (Or.inr ⟨_, rfl⟩)

theorem fire_refsValid (cb : Callback) (st : State) (h : st.refsValid) :
    (fire cb st).1.refsValid := by
  cases cb <;> simp only [fire, State.removeListener] <;>
    first
      | exact h
      | exact refsValid_of_deleted st _ h rfl (Or.inr ⟨_, rfl⟩)

theorem step_refsValid (hostnameOf : String → Option String) (e : Event) (st : State)
    (h : st.refsValid) : (step hostnameOf e st).1.refsValid := by
  cases e with
  | request now details =>
    simp only [step]
    by_cases hmain : details.resourceType = "main_frame"
    · cases hq : qualifies hostnameOf details st
      · rw [onBeforeRequest_allow hostnameOf now details st hmain hq]
        exact h
      · cases hrec : JsMap.has st.redirectedTabs details.tabId
        · obtain ⟨hostname, _, hres⟩ :=
            onBeforeRequest_fresh hostnameOf now details st hmain hq hrec
          rw [hres]
          intro e he
          simp only [List.length_append, List.length_singleton]
          rw [List.mem_append, List.mem_singleton] at he
          rcases he with he | he
          · exact Nat.lt_succ_of_lt (h e he)
          · rw [he]
            exact Nat.lt_succ_self _
        · rw [onBeforeRequest_duplicate hostnameOf now details st hmain hq hrec]
          exact h
    · rw [not_main_frame hostnameOf now details st hmain]
      exact h
  | message message =>
    cases message <;> simp only [step, onMessage, handleAdminLogin, handleOAuthLogin] <;>
      (repeat' split) <;> exact h
  | tabUpdated tabId status tabUrl => exact onUpdated_refsValid tabId status tabUrl st h
  | tabRemoved tabId => exact refsValid_of_deleted st _ h rfl (Or.inr ⟨_, rfl⟩)
  | settled k r => exact settle_refsValid k r st h
  | timer callback => exact fire_refsValid callback st h

theorem run_refsValid (hostnameOf : String → Option String) (es : List Event) (st : State)
    (h : st.refsValid) : (run hostnameOf es st).refsValid := by
  unfold run
  induction es generalizing st with
  | nil => exact h
  | cons e es ih =>
    rw [List.foldl_cons]
    exact ih _ (step_refsValid hostnameOf e st h)

theorem JsMap.mem_of_get {α : Type} (m : List (Nat × α)) (key : Nat) (value : α)
    (h : JsMap.get m key = some value) : (key, value) ∈ m := by
  induction m with
  | nil => simp [JsMap.get, List.lookup] at h
  | cons e m ih =>
    obtain ⟨k, v⟩ := e
    simp only [JsMap.get] at h ih
    by_cases hk : key = k
    · subst hk
      simp only [List.lookup, beq_self_eq_true, Option.some.injEq] at h
      subst h
      exact List.mem_cons_self _ _
    · have hk2 : (key == k) = false := by simpa using hk
      simp only [List.lookup, hk2] at h
      exact List.mem_cons_of_mem _ (ih h)

theorem tabInfo_of_has (st : State) (tabId : Nat) (hvalid : st.refsValid)
    (h : JsMap.has st.redirectedTabs tabId = true) :
    ∃ ref info, st.tabInfo tabId = some (ref, info) := by
  cases hg : JsMap.get st.redirectedTabs tabId with
  | none => simp [JsMap.has, hg] at h
  | some ref =>
    have hlt : ref < st.heap.length := hvalid _ (JsMap.mem_of_get _ _ _ hg)
    exact ⟨ref, st.heap[ref], by simp [State.tabInfo, hg, List.getElem?_eq_getElem hlt]⟩

/-! ## Decision flow driver -/

theorem tabInfo_none_of_not_has (st : State) (tabId : Nat)
    (h : JsMap.has st.redirectedTabs tabId = false) : st.tabInfo tabId = none := by
  unfold State.tabInfo
  cases hg : JsMap.get st.redirectedTabs tabId with
  | none => rfl
  | some ref => simp [JsMap.has, hg] at h

theorem has_of_tabInfo (st : State) (tabId ref : Nat) (info : TabInfo)
    (h : st.tabInfo tabId = some (ref, info)) :
    JsMap.has st.redirectedTabs tabId = true ∧ st.heap[ref]? = some info := by
  unfold State.tabInfo at h
  cases hg : JsMap.get st.redirectedTabs tabId with
  | none => simp [hg] at h
  | some r =>
    simp only [hg] at h
    cases hh : st.heap[r]? with
    | none => simp [hh] at h
    | some i =>
      simp only [hh, Option.some.injEq, Prod.mk.injEq] at h
      obtain ⟨h1, h2⟩ := h
      subst h1 h2
      exact ⟨by simp [JsMap.has, hg], hh⟩

/-- C6: `handleAdminLogin(tabId)` without a record changes nothing and asks
for no navigation; otherwise (in a state whose references are valid a tab in
`redirectedTabs` has a record object) it adds the tab to
`loginInProgressTabs` and navigates it to `https://{instance}/login.do`; when that navigation is
rejected the tab leaves `loginInProgressTabs` and `redirectedTabs`, and when
it is fulfilled the monitor is started with the `instance` and `originalUrl`
of the record object read by `handleAdminLogin`. -/
theorem handleAdminLogin_spec (tabId : Nat) (st : State) :
    (JsMap.has st.redirectedTabs tabId = false → handleAdminLogin tabId st = (st, [])) ∧
    (st.refsValid → JsMap.has st.redirectedTabs tabId = true →
      ∃ ref info, st.tabInfo tabId = some (ref, info)) ∧
    (∀ ref info, st.tabInfo tabId = some (ref, info) →
      handleAdminLogin tabId st =
        ({ st with loginInProgressTabs := JsSet.add st.loginInProgressTabs tabId },
          [Effect.tabsUpdate tabId ("https://" ++ info.instanceHost ++ "/login.do")
            (Handlers.adminNavigation tabId ref)]) ∧
      JsSet.has (handleAdminLogin tabId st).1.loginInProgressTabs tabId = true ∧
      (∀ later : State,
        JsSet.has
          (settle (Handlers.adminNavigation tabId ref) Settled.rejected later).1.loginInProgressTabs
          tabId = false ∧
        JsMap.has
          (settle (Handlers.adminNavigation tabId ref) Settled.rejected later).1.redirectedTabs
          tabId = false ∧
        (settle (Handlers.adminNavigation tabId ref) Settled.rejected later).2 = []) ∧
      (∀ (later : State) (record : TabInfo) (value : Option String),
        later.heap[ref]? = some record →
        settle (Handlers.adminNavigation tabId ref) (Settled.fulfilled value) later =
          monitorLoginCompletion tabId record.instanceHost record.originalUrl later ∧
        (settle (Handlers.adminNavigation tabId ref) (Settled.fulfilled value) later).1.listeners =
          later.listeners ++
            [(later.nextListener, ⟨tabId, record.instanceHost, record.originalUrl⟩)])) := by
  refine ⟨?_, tabInfo_of_has st tabId, ?_⟩
  · intro h
    simp [handleAdminLogin, tabInfo_none_of_not_has st tabId h]
  · intro ref info h
    have hres : handleAdminLogin tabId st =
        ({ st with loginInProgressTabs := JsSet.add st.loginInProgressTabs tabId },
          [Effect.tabsUpdate tabId ("https://" ++ info.instanceHost ++ "/login.do")
            (Handlers.adminNavigation tabId ref)]) := by
      simp [handleAdminLogin, h]
    refine ⟨hres, ?_, ?_, ?_⟩
    · rw [hres]
      exact JsSet.has_add_self _ _
    · intro later
      exact ⟨JsSet.not_has_delete _ _, JsMap.has_delete_self _ _, rfl⟩
    · intro later record value hrec
      simp [settle, adminNavigation, hrec, monitorLoginCompletion]

/-- C6, worked example: the user picks the admin login for tab 7. -/
theorem handleAdminLogin_spec_witness :
    samplePrompted.tabInfo 7 = some (0, ⟨some "https://foo.service-now.com/incident_list.do",
      "https://foo.service-now.com/oauth_redirect.do", "foo.service-now.com", 1000⟩) ∧
    handleAdminLogin 7 samplePrompted =
      ({ samplePrompted with loginInProgressTabs := [7] },
        [Effect.tabsUpdate 7 "https://foo.service-now.com/login.do"
          (Handlers.adminNavigation 7 0)]) ∧
    JsMap.has sampleStart.redirectedTabs 7 = false ∧
    handleAdminLogin 7 sampleStart = (sampleStart, []) :=
  ⟨by decide,
    ((handleAdminLogin_spec 7 samplePrompted).2.2 0
      ⟨some "https://foo.service-now.com/incident_list.do",
        "https://foo.service-now.com/oauth_redirect.do", "foo.service-now.com", 1000⟩
      (by decide)).1,
    by decide,
    (handleAdminLogin_spec 7 sampleStart).1 (by decide)⟩

/-! ## Login completion monitor -/

theorem truthy_some (u : String) : truthy (some u) = true ↔ u ≠ "" := by
  simp [truthy]

theorem ne_empty_of_includes (u pat : String) (hpat : pat ≠ "")
    (h : includes u pat = true) : u ≠ "" := by
  intro hu
  subst hu
  apply hpat
  have h2 : pat.data = [] := by simpa [includes, includesChars] using h
  exact String.ext h2

theorem onMfaPage_iff (tabUrl : Option String) :
    onMfaPage tabUrl = true ↔
      ∃ u, tabUrl = some u ∧
        ("validate_multifactor_auth_code.do".data <:+: u.data ∨
          "validate_mfa_code.do".data <:+: u.data) := by
  cases tabUrl with
  | none => simp [onMfaPage]
  | some u =>
    simp only [onMfaPage, Bool.and_eq_true, Bool.or_eq_true, truthy_some, includes_iff,
      Option.some.injEq, exists_eq_left']
    constructor
    · exact fun h => h.2
    · intro h
      refine ⟨?_, h⟩
      rcases h with h | h
      · exact ne_empty_of_includes u _ (by decide) ((includes_iff _ _).mpr h)
      · exact ne_empty_of_includes u _ (by decide) ((includes_iff _ _).mpr h)

theorem loginComplete_iff (instanceHost : String) (status tabUrl : Option String)
    (hinst : instanceHost ≠ "") :
    loginComplete instanceHost status tabUrl = true ↔
      status = some "complete" ∧
      ∃ u, tabUrl = some u ∧ instanceHost.data <:+: u.data ∧
        ¬ "/login.do".data <:+: u.data ∧
        ¬ "validate_multifactor_auth_code.do".data <:+: u.data ∧
        ¬ "validate_mfa_code.do".data <:+: u.data := by
  cases tabUrl with
  | none => simp [loginComplete]
  | some u =>
    simp only [loginComplete, Bool.and_eq_true, Bool.not_eq_true', truthy_some,
      ← Bool.not_eq_true, includes_iff, Option.some.injEq, exists_eq_left', beq_iff_eq]
    constructor
    · rintro ⟨⟨⟨⟨⟨h1, _⟩, h3⟩, h4⟩, h5⟩, h6⟩
      exact ⟨h1, h6, h3, h4, h5⟩
    · rintro ⟨h1, h6, h3, h4, h5⟩
      exact ⟨⟨⟨⟨⟨h1, ne_empty_of_includes u _ hinst ((includes_iff _ _).mpr h6)⟩, h3⟩, h4⟩,
        h5⟩, h6⟩

theorem not_mfa_of_loginComplete (instanceHost : String) (status tabUrl : Option String)
    (h : loginComplete instanceHost status tabUrl = true) : onMfaPage tabUrl = false := by
  cases tabUrl with
  | none => rfl
  | some u =>
    simp only [loginComplete, Bool.and_eq_true, Bool.not_eq_true'] at h
    obtain ⟨⟨⟨⟨_, _⟩, h4⟩, h5⟩, _⟩ := h
    simp [onMfaPage, h4, h5]

theorem shouldReturn_iff (instanceHost : String) (originalUrl tabUrl : Option String) :
    shouldReturn instanceHost originalUrl tabUrl = true ↔
      ∃ o, originalUrl = some o ∧ o ≠ "" ∧ some o ≠ tabUrl ∧
        ¬ "auth_redirect".data <:+: o.data ∧
        ¬ "oauth_redirect".data <:+: o.data ∧
        instanceHost.data <:+: o.data := by
  cases originalUrl with
  | none => simp [shouldReturn]
  | some o =>
    simp only [shouldReturn, Bool.and_eq_true, Bool.not_eq_true', truthy_some,
      ← Bool.not_eq_true, includes_iff, Option.some.injEq, exists_eq_left', bne_iff_ne]
    tauto

theorem listener_skip (self : Nat) (m : Monitor) (updatedTabId : Nat)
    (status tabUrl : Option String) (st : State)
    (h : updatedTabId ≠ m.tabId ∨ onMfaPage tabUrl = true ∨
      loginComplete m.instanceHost status tabUrl = false) :
    listener self m updatedTabId status tabUrl st = (st, []) := by
  unfold listener
  by_cases h1 : updatedTabId = m.tabId
  · have hb : (updatedTabId != m.tabId) = false := by simpa using h1
    by_cases h2 : onMfaPage tabUrl = true
    · simp [hb, h2]
    · rcases h with h | h | h
      · exact absurd h1 h
      · exact absurd h h2
      · simp [hb, h2, h]
  · have hb : (updatedTabId != m.tabId) = true := by simpa using h1
    simp [hb]

theorem listener_return (self : Nat) (m : Monitor) (status tabUrl : Option String)
    (st : State) (hdone : loginComplete m.instanceHost status tabUrl = true)
    (hret : shouldReturn m.instanceHost m.originalUrl tabUrl = true) :
    ∃ o, m.originalUrl = some o ∧
      listener self m m.tabId status tabUrl st =
        (st.removeListener self,
          [Effect.setTimeout (Callback.returnToOriginal m.tabId o) 500]) := by
  have hmfa := not_mfa_of_loginComplete _ _ _ hdone
  cases ho : m.originalUrl with
  | none => simp [shouldReturn, ho] at hret
  | some o =>
    refine ⟨o, rfl, ?_⟩
    rw [ho] at hret
    simp [listener, hmfa, hdone, ho, hret]

theorem listener_finish (self : Nat) (m : Monitor) (status tabUrl : Option String)
    (st : State) (hdone : loginComplete m.instanceHost status tabUrl = true)
    (hret : shouldReturn m.instanceHost m.originalUrl tabUrl = false) :
    listener self m m.tabId status tabUrl st =
      ({ st.removeListener self with
          redirectedTabs := JsMap.delete st.redirectedTabs m.tabId },
        [Effect.setTimeout (Callback.loginFlagCleanup m.tabId) 3000]) := by
  have hmfa := not_mfa_of_loginComplete _ _ _ hdone
  cases ho : m.originalUrl with
  | none => simp [listener, hmfa, hdone, ho, State.removeListener]
  | some o =>
    rw [ho] at hret
    simp [listener, hmfa, hdone, ho, hret, State.removeListener]

/-- C7 as stated fails: the listener tests whether the tab address contains
the instance anywhere, not whether the address is on that host. With status
`complete`, the identity provider's page that carries the instance in its
`redirect_uri` makes the registered listener of tab 7 unregister itself,
although the host of the address is `login.microsoftonline.com`, which is
not the monitored instance and does not contain it. -/
theorem listener_completion_counterexample :
    plainHostname
      "https://login.microsoftonline.com/common/oauth2/authorize?redirect_uri=https%3A%2F%2Ffoo.service-now.com%2Fhome.do"
      = some "login.microsoftonline.com" ∧
    "login.microsoftonline.com" ≠ sampleMonitor.instanceHost ∧
    includes "login.microsoftonline.com" sampleMonitor.instanceHost = false ∧
    JsMap.has sampleMonitoring.listeners 0 = true ∧
    JsMap.has (listener 0 sampleMonitor 7 (some "complete")
      (some "https://login.microsoftonline.com/common/oauth2/authorize?redirect_uri=https%3A%2F%2Ffoo.service-now.com%2Fhome.do")
      sampleMonitoring).1.listeners 0 = false := by
  refine ⟨by decide, by decide, by decide, by decide, by decide⟩

/-- C7, amended: a registered listener of a monitor with a non-empty instance
unregisters itself on an update event exactly when the event is for its tab,
the status is `complete`, and the tab address contains the instance as a
substring (anywhere in the address) and contains neither `/login.do` nor one
of the two MFA fragments; on an event whose address contains an MFA fragment,
whatever the status, the listener returns with the state untouched (it stays
registered) and asks nothing of the browser. -/
theorem listener_completion_iff (self : Nat) (m : Monitor) (updatedTabId : Nat)
    (status tabUrl : Option String) (st : State)
    (hreg : JsMap.has st.listeners self = true) (hinst : m.instanceHost ≠ "") :
    (JsMap.has (listener self m updatedTabId status tabUrl st).1.listeners self = false ↔
      (updatedTabId = m.tabId ∧ status = some "complete" ∧
        ∃ u, tabUrl = some u ∧ m.instanceHost.data <:+: u.data ∧
          ¬ "/login.do".data <:+: u.data ∧
          ¬ "validate_multifactor_auth_code.do".data <:+: u.data ∧
          ¬ "validate_mfa_code.do".data <:+: u.data)) ∧
    (∀ u, tabUrl = some u →
      ("validate_multifactor_auth_code.do".data <:+: u.data ∨
        "validate_mfa_code.do".data <:+: u.data) →
      ∀ anyStatus : Option String,
        listener self m m.tabId anyStatus tabUrl st = (st, [])) := by
  refine ⟨?_, ?_⟩
  · rw [← loginComplete_iff m.instanceHost status tabUrl hinst]
    by_cases h1 : updatedTabId = m.tabId
    · subst h1
      cases hdone : loginComplete m.instanceHost status tabUrl
      · rw [listener_skip self m _ status tabUrl st (Or.inr (Or.inr hdone))]
        simp [hreg]
      · cases hret : shouldReturn m.instanceHost m.originalUrl tabUrl
        · rw [listener_finish self m status tabUrl st hdone hret]
          simp [State.removeListener, JsMap.has_delete_self]
        · obtain ⟨o, _, hres⟩ := listener_return self m status tabUrl st hdone hret
          rw [hres]
          simp [State.removeListener, JsMap.has_delete_self]
    · rw [listener_skip self m _ status tabUrl st (Or.inl h1)]
      simp [hreg, h1]
  · intro u hu hmfa anyStatus
    exact listener_skip self m _ anyStatus tabUrl st
      (Or.inr (Or.inl ((onMfaPage_iff tabUrl).mpr ⟨u, hu, hmfa⟩)))

/-- C7 amended, worked example: while tab 7 is monitored, the MFA page leaves the
listener registered even with status `complete`, and the home page with
status `complete` unregisters it. -/
theorem listener_completion_iff_witness :
    listener 0 sampleMonitor 7 (some "complete")
      (some "https://foo.service-now.com/validate_mfa_code.do") sampleMonitoring =
        (sampleMonitoring, []) ∧
    JsMap.has (listener 0 sampleMonitor 7 (some "complete")
      (some "https://foo.service-now.com/home.do") sampleMonitoring).1.listeners 0 = false :=
  ⟨(listener_completion_iff 0 sampleMonitor 7 (some "complete")
      (some "https://foo.service-now.com/validate_mfa_code.do") sampleMonitoring
      (by decide) (by decide)).2 _ rfl (Or.inr (by decide)) (some "complete"),
    (listener_completion_iff 0 sampleMonitor 7 (some "complete")
      (some "https://foo.service-now.com/home.do") sampleMonitoring
      (by decide) (by decide)).1.mpr
      ⟨rfl, rfl, _, rfl, by decide, by decide, by decide, by decide⟩⟩

/-- C8 as stated fails in both directions. With original address
`.../navpage.do` (an OAuth redirect address for `isOAuthRedirect`) the return
navigation is scheduled; with an original address that contains
`oauth_redirect` without `.do` (no OAuth redirect address for
`isOAuthRedirect`, recorded, different from the landing page, on the same
instance) it is not. And the instance test is a substring test on the whole
address: a search page on `www.google.com` whose query names the instance is
returned to. -/
theorem listener_return_counterexample :
    loginComplete "foo.service-now.com" (some "complete")
      (some "https://foo.service-now.com/home.do") = true ∧
    isOAuthRedirect "https://foo.service-now.com/navpage.do" = true ∧
    (listener 0 ⟨7, "foo.service-now.com", some "https://foo.service-now.com/navpage.do"⟩ 7
      (some "complete") (some "https://foo.service-now.com/home.do") sampleMonitoring).2 =
        [Effect.setTimeout
          (Callback.returnToOriginal 7 "https://foo.service-now.com/navpage.do") 500] ∧
    isOAuthRedirect "https://foo.service-now.com/kb_find.do?q=oauth_redirect" = false ∧
    "https://foo.service-now.com/kb_find.do?q=oauth_redirect" ≠
      "https://foo.service-now.com/home.do" ∧
    includes "https://foo.service-now.com/kb_find.do?q=oauth_redirect" "foo.service-now.com"
      = true ∧
    (listener 0
      ⟨7, "foo.service-now.com", some "https://foo.service-now.com/kb_find.do?q=oauth_redirect"⟩
      7 (some "complete") (some "https://foo.service-now.com/home.do") sampleMonitoring).2 =
        [Effect.setTimeout (Callback.loginFlagCleanup 7) 3000] ∧
    plainHostname "https://www.google.com/search?q=foo.service-now.com" =
      some "www.google.com" ∧
    includes "www.google.com" "foo.service-now.com" = false ∧
    isOAuthRedirect "https://www.google.com/search?q=foo.service-now.com" = false ∧
    (listener 0
      ⟨7, "foo.service-now.com", some "https://www.google.com/search?q=foo.service-now.com"⟩
      7 (some "complete") (some "https://foo.service-now.com/home.do") sampleMonitoring).2 =
        [Effect.setTimeout
          (Callback.returnToOriginal 7 "https://www.google.com/search?q=foo.service-now.com")
          500] := by
  refine ⟨by decide, by decide, by decide, by decide, by decide, by decide, by decide,
    by decide, by decide, by decide, by decide⟩

/-- C8, amended: on login completion the listener schedules the return to
`originalUrl` exactly when an `originalUrl` was recorded, it differs from the
landing address, it contains neither `auth_redirect` nor `oauth_redirect`,
and it contains the instance as a substring (anywhere in the address); the
timer then navigates the tab to `originalUrl`. In every other case the only request is the grace timer (no
navigation), the tab has left `redirectedTabs` at once, `loginInProgressTabs`
is as it was, and the grace timer removes the tab from it. -/
theorem listener_return_spec (self : Nat) (m : Monitor) (status tabUrl : Option String)
    (st : State) (hdone : loginComplete m.instanceHost status tabUrl = true) :
    ((∃ o, m.originalUrl = some o ∧
        (listener self m m.tabId status tabUrl st).2 =
          [Effect.setTimeout (Callback.returnToOriginal m.tabId o) 500]) ↔
      (∃ o, m.originalUrl = some o ∧ o ≠ "" ∧ some o ≠ tabUrl ∧
        ¬ "auth_redirect".data <:+: o.data ∧ ¬ "oauth_redirect".data <:+: o.data ∧
        m.instanceHost.data <:+: o.data)) ∧
    (∀ (o : String) (later : State),
      fire (Callback.returnToOriginal m.tabId o) later =
        (later, [Effect.tabsUpdate m.tabId o (Handlers.returnNavigation m.tabId)])) ∧
    (¬ (∃ o, m.originalUrl = some o ∧ o ≠ "" ∧ some o ≠ tabUrl ∧
        ¬ "auth_redirect".data <:+: o.data ∧ ¬ "oauth_redirect".data <:+: o.data ∧
        m.instanceHost.data <:+: o.data) →
      (listener self m m.tabId status tabUrl st).2 =
        [Effect.setTimeout (Callback.loginFlagCleanup m.tabId) 3000] ∧
      JsMap.has (listener self m m.tabId status tabUrl st).1.redirectedTabs m.tabId = false ∧
      (listener self m m.tabId status tabUrl st).1.loginInProgressTabs =
        st.loginInProgressTabs ∧
      ∀ later : State,
        JsSet.has (fire (Callback.loginFlagCleanup m.tabId) later).1.loginInProgressTabs
          m.tabId = false) := by
  rw [← shouldReturn_iff]
  cases hret : shouldReturn m.instanceHost m.originalUrl tabUrl
  · have hres := listener_finish self m status tabUrl st hdone hret
    refine ⟨?_, fun _ _ => rfl, ?_⟩
    · rw [hres]
      simp
    · intro _
      rw [hres]
      exact ⟨rfl, JsMap.has_delete_self _ _, rfl, fun later => JsSet.not_has_delete _ _⟩
  · obtain ⟨o, ho, hres⟩ := listener_return self m status tabUrl st hdone hret
    refine ⟨?_, fun _ _ => rfl, ?_⟩
    · simp only [iff_true]
      exact ⟨o, ho, by rw [hres]⟩
    · intro h
      exact absurd rfl h

/-- C8 amended, worked example: login of tab 7 completes on the home page and
the return to the incident list is scheduled. -/
theorem listener_return_spec_witness :
    loginComplete sampleMonitor.instanceHost (some "complete")
      (some "https://foo.service-now.com/home.do") = true ∧
    ∃ o, sampleMonitor.originalUrl = some o ∧
      (listener 0 sampleMonitor sampleMonitor.tabId (some "complete")
        (some "https://foo.service-now.com/home.do") sampleMonitoring).2 =
          [Effect.setTimeout (Callback.returnToOriginal sampleMonitor.tabId o) 500] :=
  ⟨by decide,
    (listener_return_spec 0 sampleMonitor (some "complete")
      (some "https://foo.service-now.com/home.do") sampleMonitoring (by decide)).1.mpr
      ⟨_, rfl, by decide, by decide, by decide, by decide, by decide⟩⟩

/-! ## The tab lookup after a fresh interception -/

theorem onLoginOrBlank_iff (originalUrl : Option String) :
    onLoginOrBlank originalUrl = true ↔
      ∃ u, originalUrl = some u ∧ ("/login.do".data <:+: u.data ∨ u = "about:blank") := by
  cases originalUrl with
  | none => simp [onLoginOrBlank]
  | some u =>
    simp only [onLoginOrBlank, Bool.and_eq_true, Bool.or_eq_true, truthy_some, includes_iff,
      Option.some.injEq, exists_eq_left', beq_iff_eq]
    constructor
    · exact fun h => h.2
    · intro h
      refine ⟨?_, h⟩
      rcases h with h | h
      · exact ne_empty_of_includes u _ (by decide) ((includes_iff _ _).mpr h)
      · rw [h]
        decide

/-- C9 as stated fails for a missing and for an empty tab address: the record
of tab 7 stays in `redirectedTabs` and the prompt is opened. -/
theorem tabLookup_counterexample :
    JsMap.has (tabLookup 7 (Settled.fulfilled none) sampleIntercepted).1.redirectedTabs 7
      = true ∧
    (tabLookup 7 (Settled.fulfilled none) sampleIntercepted).2 =
      [Effect.windowsCreate 7 "foo.service-now.com" (Handlers.promptWindow 7)] ∧
    JsMap.has (tabLookup 7 (Settled.fulfilled (some "")) sampleIntercepted).1.redirectedTabs 7
      = true ∧
    (tabLookup 7 (Settled.fulfilled (some "")) sampleIntercepted).2 =
      [Effect.windowsCreate 7 "foo.service-now.com" (Handlers.promptWindow 7)] := by
  refine ⟨by decide, by decide, by decide, by decide⟩

/-- C9, amended: when the tab lookup is rejected, or the tab address contains
`/login.do` or is `about:blank`, the record is deleted and nothing is asked of
the browser (no prompt); every request the continuation makes is the prompt
for this tab and is made only after a fulfilled lookup whose address is
neither of those, for a tab outside `loginInProgressTabs`; and after such a
lookup, a missing or empty address included, a tab outside
`loginInProgressTabs` that still has its record gets that address stored as
`originalUrl` and the prompt opened. -/
theorem tabLookup_spec (tabId : Nat) (r : Settled) (st : State) :
    (r = Settled.rejected →
      JsMap.has (tabLookup tabId r st).1.redirectedTabs tabId = false ∧
      (tabLookup tabId r st).2 = []) ∧
    (∀ u, r = Settled.fulfilled (some u) →
      ("/login.do".data <:+: u.data ∨ u = "about:blank") →
      JsMap.has (tabLookup tabId r st).1.redirectedTabs tabId = false ∧
      (tabLookup tabId r st).2 = []) ∧
    (∀ eff ∈ (tabLookup tabId r st).2,
      (∃ info, eff = Effect.windowsCreate tabId info (Handlers.promptWindow tabId)) ∧
      JsSet.has st.loginInProgressTabs tabId = false ∧
      ∃ tabUrl, r = Settled.fulfilled tabUrl ∧
        ¬ ∃ u, tabUrl = some u ∧ ("/login.do".data <:+: u.data ∨ u = "about:blank")) ∧
    (∀ tabUrl ref info, r = Settled.fulfilled tabUrl →
      (¬ ∃ u, tabUrl = some u ∧ ("/login.do".data <:+: u.data ∨ u = "about:blank")) →
      JsSet.has st.loginInProgressTabs tabId = false →
      st.tabInfo tabId = some (ref, info) →
      tabLookup tabId r st =
        ({ st with heap := st.heap.set ref { info with originalUrl := tabUrl } },
          [Effect.windowsCreate tabId info.instanceHost (Handlers.promptWindow tabId)])) := by
  refine ⟨?_, ?_, ?_, ?_⟩
  · intro hr
    subst hr
    exact ⟨JsMap.has_delete_self _ _, rfl⟩
  · intro u hr hu
    subst hr
    have hb : onLoginOrBlank (some u) = true := (onLoginOrBlank_iff _).mpr ⟨u, rfl, hu⟩
    rw [tabLookup_fulfilled, if_pos hb]
    exact ⟨JsMap.has_delete_self _ _, rfl⟩
  · intro eff heff
    cases r with
    | rejected => simp [tabLookup, tabLookupCatch] at heff
    | fulfilled tabUrl =>
      rw [tabLookup_fulfilled] at heff
      by_cases hb : onLoginOrBlank tabUrl = true
      · simp [hb] at heff
      · by_cases hl : JsSet.has st.loginInProgressTabs tabId = true
        · simp [hb, hl] at heff
        · rw [if_neg hb, if_neg hl] at heff
          cases hinfo : st.tabInfo tabId with
          | none => simp [hinfo] at heff
          | some p =>
            simp only [hinfo, List.mem_singleton] at heff
            refine ⟨⟨_, heff⟩, by simpa using hl, tabUrl, rfl, ?_⟩
            rw [← onLoginOrBlank_iff]
            exact hb
  · intro tabUrl ref info hr hu hl hinfo
    subst hr
    rw [← onLoginOrBlank_iff] at hu
    rw [tabLookup_fulfilled]
    simp [hu, hl, hinfo]

/-- C9 amended, worked example: the lookup for tab 7 answers `about:blank`
and the record goes; it answers the incident list and the prompt opens. -/
theorem tabLookup_spec_witness :
    (JsMap.has (tabLookup 7 (Settled.fulfilled (some "about:blank"))
        sampleIntercepted).1.redirectedTabs 7 = false ∧
      (tabLookup 7 (Settled.fulfilled (some "about:blank")) sampleIntercepted).2 = []) ∧
    tabLookup 7 (Settled.fulfilled (some "https://foo.service-now.com/incident_list.do"))
        sampleIntercepted =
      (samplePrompted,
        [Effect.windowsCreate 7 "foo.service-now.com" (Handlers.promptWindow 7)]) :=
  ⟨(tabLookup_spec 7 (Settled.fulfilled (some "about:blank")) sampleIntercepted).2.1
      "about:blank" rfl (Or.inr rfl),
    (tabLookup_spec 7 (Settled.fulfilled (some "https://foo.service-now.com/incident_list.do"))
      sampleIntercepted).2.2.2 _ 0
      ⟨none, "https://foo.service-now.com/oauth_redirect.do", "foo.service-now.com", 1000⟩
      rfl (by decide) (by decide) (by decide)⟩

/-! ## The OAuth path -/

/-- C10: `handleOAuthLogin(tabId)` for a tab with a record adds the tab to
`allowedOAuthTabs` and, after 100 ms, navigates it to the record's
`redirectUrl`. When that navigation is rejected the tab leaves
`allowedOAuthTabs` only: its record stays, and the next qualifying main-frame
navigation on the tab is cancelled with the state untouched and nothing
asked of the browser (no new record, no lookup, no prompt). When it is
fulfilled a 10 s timer is armed that removes the tab from `redirectedTabs`
and `allowedOAuthTabs`. -/
theorem handleOAuthLogin_spec (hostnameOf : String → Option String) (tabId : Nat)
    (st : State) (ref : Nat) (info : TabInfo) (hrec : st.tabInfo tabId = some (ref, info)) :
    handleOAuthLogin tabId st =
      ({ st with allowedOAuthTabs := JsSet.add st.allowedOAuthTabs tabId },
        [Effect.setTimeout (Callback.oauthNavigate tabId info.redirectUrl) 100]) ∧
    JsSet.has (handleOAuthLogin tabId st).1.allowedOAuthTabs tabId = true ∧
    fire (Callback.oauthNavigate tabId info.redirectUrl) (handleOAuthLogin tabId st).1 =
      ((handleOAuthLogin tabId st).1,
        [Effect.tabsUpdate tabId info.redirectUrl (Handlers.oauthNavigation tabId)]) ∧
    (∀ failed : State × List Effect,
      failed = settle (Handlers.oauthNavigation tabId) Settled.rejected
        (handleOAuthLogin tabId st).1 →
      failed.2 = [] ∧
      JsSet.has failed.1.allowedOAuthTabs tabId = false ∧
      failed.1.redirectedTabs = st.redirectedTabs ∧
      failed.1.tabInfo tabId = some (ref, info) ∧
      ∀ (now : Nat) (details : Details),
        details.resourceType = "main_frame" → details.tabId = tabId →
        JsSet.has failed.1.loginInProgressTabs tabId = false →
        isServiceNowInstance hostnameOf failed.1.instances details.url = true →
        isOAuthRedirect details.url = true →
        onBeforeRequest hostnameOf now details failed.1 = Except.ok ⟨true, failed.1, []⟩) ∧
    (∀ value : Option String,
      settle (Handlers.oauthNavigation tabId) (Settled.fulfilled value)
          (handleOAuthLogin tabId st).1 =
        ((handleOAuthLogin tabId st).1,
          [Effect.setTimeout (Callback.oauthCleanup tabId) 10000])) ∧
    (∀ later : State,
      JsMap.has (fire (Callback.oauthCleanup tabId) later).1.redirectedTabs tabId = false ∧
      JsSet.has (fire (Callback.oauthCleanup tabId) later).1.allowedOAuthTabs tabId = false) := by
  have hres : handleOAuthLogin tabId st =
      ({ st with allowedOAuthTabs := JsSet.add st.allowedOAuthTabs tabId },
        [Effect.setTimeout (Callback.oauthNavigate tabId info.redirectUrl) 100]) := by
    simp [handleOAuthLogin, hrec]
  refine ⟨hres, ?_, rfl, ?_, fun _ => rfl, ?_⟩
  · rw [hres]
    exact JsSet.has_add_self _ _
  · intro failed hfailed
    rw [hres] at hfailed
    subst hfailed
    have hallowed : JsSet.has
        (settle (Handlers.oauthNavigation tabId) Settled.rejected
          { st with allowedOAuthTabs := JsSet.add st.allowedOAuthTabs tabId }).1.allowedOAuthTabs
        tabId = false := JsSet.not_has_delete _ _
    refine ⟨rfl, hallowed, rfl, hrec, ?_⟩
    intro now details hmain htab hlogin hsn ho
    subst htab
    exact onBeforeRequest_duplicate hostnameOf now details _ hmain
      ((qualifies_iff hostnameOf details _).mpr ⟨hlogin, hallowed, hsn, ho⟩)
      (has_of_tabInfo st _ ref info hrec).1
  · intro later
    exact ⟨JsMap.has_delete_self _ _, JsSet.not_has_delete _ _⟩

/-- C10, worked example: the OAuth re-navigation of tab 7 fails; the state is
back to the one with the prompt open, and the next navigation of the tab to
`sso.do` is cancelled without a trace. -/
theorem handleOAuthLogin_spec_witness :
    samplePrompted.tabInfo 7 = some (0, ⟨some "https://foo.service-now.com/incident_list.do",
      "https://foo.service-now.com/oauth_redirect.do", "foo.service-now.com", 1000⟩) ∧
    handleOAuthLogin 7 samplePrompted =
      ({ samplePrompted with allowedOAuthTabs := [7] },
        [Effect.setTimeout
          (Callback.oauthNavigate 7 "https://foo.service-now.com/oauth_redirect.do") 100]) ∧
    settle (Handlers.oauthNavigation 7) Settled.rejected (handleOAuthLogin 7 samplePrompted).1 =
      (samplePrompted, []) ∧
    onBeforeRequest plainHostname 3000 (mainFrame "https://foo.service-now.com/sso.do" 7)
      samplePrompted = Except.ok ⟨true, samplePrompted, []⟩ :=
  ⟨by decide,
    (handleOAuthLogin_spec plainHostname 7 samplePrompted 0
      ⟨some "https://foo.service-now.com/incident_list.do",
        "https://foo.service-now.com/oauth_redirect.do", "foo.service-now.com", 1000⟩
      (by decide)).1,
    by decide,
    (handleOAuthLogin_spec plainHostname 7 samplePrompted 0
      ⟨some "https://foo.service-now.com/incident_list.do",
        "https://foo.service-now.com/oauth_redirect.do", "foo.service-now.com", 1000⟩
      (by decide)).2.2.2.1 (samplePrompted, []) (by decide) |>.2.2.2.2 3000
      (mainFrame "https://foo.service-now.com/sso.do" 7) rfl rfl (by decide) (by decide)
      (by decide)⟩

/-! ## Tab closure cleanup -/

theorem JsMap.has_append_ne {α : Type} (m : List (Nat × α)) (key other : Nat) (value : α)
    (hne : other ≠ key) (h : JsMap.has m key = false) :
    JsMap.has (m ++ [(other, value)]) key = false := by
  rw [JsMap.has_eq_false_iff] at h ⊢
  intro e he
  rw [List.mem_append, List.mem_singleton] at he
  rcases he with he | he
  · exact h e he
  · rw [he]
    exact hne

theorem JsSet.has_add_ne (s : List Nat) (value other : Nat) (hne : other ≠ value)
    (h : JsSet.has s value = false) : JsSet.has (JsSet.add s other) value = false := by
  unfold JsSet.add
  split
  · exact h
  · rw [JsSet.not_has_iff] at h ⊢
    intro hmem
    rw [List.mem_append, List.mem_singleton] at hmem
    rcases hmem with hmem | hmem
    · exact h hmem
    · exact hne hmem.symm

theorem tabAbsent_of_deleted (st after : State) (tabId : Nat) (h : st.tabAbsent tabId)
    (h1 : after.redirectedTabs = st.redirectedTabs ∨
      ∃ k, after.redirectedTabs = JsMap.delete st.redirectedTabs k)
    (h2 : after.allowedOAuthTabs = st.allowedOAuthTabs ∨
      ∃ k, after.allowedOAuthTabs = JsSet.delete st.allowedOAuthTabs k)
    (h3 : after.loginInProgressTabs = st.loginInProgressTabs ∨
      ∃ k, after.loginInProgressTabs = JsSet.delete st.loginInProgressTabs k) :
    after.tabAbsent tabId := by
  obtain ⟨a1, a2, a3⟩ := h
  refine ⟨?_, ?_, ?_⟩
  · rcases h1 with h1 | ⟨k, h1⟩
    · rw [h1]; exact a1
    · rw [h1]; exact JsMap.has_delete_of_not_has _ _ _ a1
  · rcases h2 with h2 | ⟨k, h2⟩
    · rw [h2]; exact a2
    · rw [h2]; exact JsSet.not_has_after_delete _ _ _ a2
  · rcases h3 with h3 | ⟨k, h3⟩
    · rw [h3]; exact a3
    · rw [h3]; exact JsSet.not_has_after_delete _ _ _ a3

theorem ne_of_tabInfo (st : State) (tabId other ref : Nat) (info : TabInfo)
    (h : st.tabAbsent tabId) (hinfo : st.tabInfo other = some (ref, info)) :
    other ≠ tabId := by
  intro heq
  subst heq
  rw [tabInfo_none_of_not_has st _ h.1] at hinfo
  cases hinfo

theorem handleOAuthLogin_tabAbsent (other tabId : Nat) (st : State)
    (h : st.tabAbsent tabId) : (handleOAuthLogin other st).1.tabAbsent tabId := by
  unfold handleOAuthLogin
  cases hinfo : st.tabInfo other with
  | none => exact h
  | some p =>
    obtain ⟨ref, info⟩ := p
    exact ⟨h.1, JsSet.has_add_ne _ _ _ (ne_of_tabInfo st tabId other ref info h hinfo) h.2.1,
      h.2.2⟩

theorem handleAdminLogin_tabAbsent (other tabId : Nat) (st : State)
    (h : st.tabAbsent tabId) : (handleAdminLogin other st).1.tabAbsent tabId := by
  unfold handleAdminLogin
  cases hinfo : st.tabInfo other with
  | none => exact h
  | some p =>
    obtain ⟨ref, info⟩ := p
    exact ⟨h.1, h.2.1,
      JsSet.has_add_ne _ _ _ (ne_of_tabInfo st tabId other ref info h hinfo) h.2.2⟩

theorem listener_tabAbsent (self : Nat) (m : Monitor) (updatedTabId : Nat)
    (status tabUrl : Option String) (st : State) (tabId : Nat) (h : st.tabAbsent tabId) :
    (listener self m updatedTabId status tabUrl st).1.tabAbsent tabId := by
  unfold listener
  split
  · exact h
  split
  · exact h
  split
  · split
    · split
      · exact h
      · exact tabAbsent_of_deleted st _ tabId h (Or.inr ⟨_, rfl⟩) (Or.inl rfl) (Or.inl rfl)
    · exact tabAbsent_of_deleted st _ tabId h (Or.inr ⟨_, rfl⟩) (Or.inl rfl) (Or.inl rfl)
  · exact h

theorem onUpdated_tabAbsent (updatedTabId : Nat) (status tabUrl : Option String)
    (st : State) (tabId : Nat) (h : st.tabAbsent tabId) :
    (onUpdated updatedTabId status tabUrl st).1.tabAbsent tabId := by
  unfold onUpdated
  generalize st.listeners = ls
  suffices hgen : ∀ (acc : State × List Effect), acc.1.tabAbsent tabId →
      (ls.foldl (fun acc l =>
        let res := listener l.1 l.2 updatedTabId status tabUrl acc.1
        (res.1, acc.2 ++ res.2)) acc).1.tabAbsent tabId from hgen (st, []) h
  induction ls with
  | nil => intro acc hacc; exact hacc
  | cons l ls ih =>
    intro acc hacc
    rw [List.foldl_cons]
    exact ih _ (listener_tabAbsent _ _ _ _ _ _ tabId hacc)

theorem settle_tabAbsent (k : Handlers) (r : Settled) (st : State) (tabId : Nat)
    (h : st.tabAbsent tabId) : (settle k r st).1.tabAbsent tabId := by
  cases k with
  | tabLookup other =>
    cases r with
    | fulfilled tabUrl =>
      simp only [settle, tabLookup_fulfilled]
      repeat' split
      all_goals first
        | exact h
        | exact tabAbsent_of_deleted st _ tabId h (Or.inr ⟨_, rfl⟩) (Or.inl rfl) (Or.inl rfl)
    | rejected =>
      exact tabAbsent_of_deleted st _ tabId h (Or.inr ⟨_, rfl⟩) (Or.inl rfl) (Or.inl rfl)
  | promptWindow other =>
    cases r with
    | fulfilled _ => exact h
    | rejected =>
      simp only [settle, promptWindow]
      split
      · exact handleOAuthLogin_tabAbsent other tabId st h
      · exact h
  | adminNavigation other tabInfo =>
    cases r with
    | fulfilled _ =>
      simp only [settle, adminNavigation, monitorLoginCompletion]
      split
      · exact h
      · exact h
    | rejected =>
      exact tabAbsent_of_deleted st _ tabId h (Or.inr ⟨_, rfl⟩) (Or.inl rfl) (Or.inr ⟨_, rfl⟩)
  | oauthNavigation other =>
    cases r with
    | fulfilled _ => exact h
    | rejected =>
      exact tabAbsent_of_deleted st _ tabId h (Or.inl rfl) (Or.inr ⟨_, rfl⟩) (Or.inl rfl)
  | returnNavigation other =>
    cases r with
    | fulfilled _ =>
      exact tabAbsent_of_deleted st _ tabId h (Or.inr ⟨_, rfl⟩) (Or.inl rfl) (Or.inl rfl)
    | rejected =>
      exact tabAbsent_of_deleted st _ tabId h (Or.inr ⟨_, rfl⟩) (Or.inl rfl) (Or.inr ⟨_, rfl⟩)

theorem fire_tabAbsent (cb : Callback) (st : State) (tabId : Nat)
    (h : st.tabAbsent tabId) : (fire cb st).1.tabAbsent tabId := by
  cases cb with
  | oauthNavigate other url => exact h
  | oauthCleanup other =>
    exact tabAbsent_of_deleted st _ tabId h (Or.inr ⟨_, rfl⟩) (Or.inr ⟨_, rfl⟩) (Or.inl rfl)
  | returnToOriginal other url => exact h
  | loginFlagCleanup other =>
    exact tabAbsent_of_deleted st _ tabId h (Or.inl rfl) (Or.inl rfl) (Or.inr ⟨_, rfl⟩)
  | monitorTimeout other self =>
    exact tabAbsent_of_deleted st _ tabId h (Or.inl rfl) (Or.inl rfl) (Or.inr ⟨_, rfl⟩)

theorem step_tabAbsent (hostnameOf : String → Option String) (e : Event) (st : State)
    (tabId : Nat) (h : st.tabAbsent tabId) (hreq : e.isRequestOn tabId = false) :
    (step hostnameOf e st).1.tabAbsent tabId := by
  cases e with
  | request now details =>
    have hne : details.tabId ≠ tabId := by simpa [Event.isRequestOn] using hreq
    simp only [step]
    by_cases hmain : details.resourceType = "main_frame"
    · cases hq : qualifies hostnameOf details st
      · rw [onBeforeRequest_allow hostnameOf now details st hmain hq]
        exact h
      · cases hrec : JsMap.has st.redirectedTabs details.tabId
        · obtain ⟨hostname, _, hres⟩ :=
            onBeforeRequest_fresh hostnameOf now details st hmain hq hrec
          rw [hres]
          exact ⟨JsMap.has_append_ne _ _ _ _ hne h.1, h.2.1, h.2.2⟩
        · rw [onBeforeRequest_duplicate hostnameOf now details st hmain hq hrec]
          exact h
    · rw [not_main_frame hostnameOf now details st hmain]
      exact h
  | message message =>
    cases message with
    | useAdminLogin other => exact handleAdminLogin_tabAbsent other tabId st h
    | useOAuth other => exact handleOAuthLogin_tabAbsent other tabId st h
    | updateInstances instances => exact h
    | other => exact h
  | tabUpdated other status tabUrl => exact onUpdated_tabAbsent other status tabUrl st tabId h
  | tabRemoved other =>
    exact tabAbsent_of_deleted st _ tabId h (Or.inr ⟨_, rfl⟩) (Or.inr ⟨_, rfl⟩)
      (Or.inr ⟨_, rfl⟩)
  | settled k r => exact settle_tabAbsent k r st tabId h
  | timer callback => exact fire_tabAbsent callback st tabId h

theorem run_tabAbsent (hostnameOf : String → Option String) (es : List Event) (st : State)
    (tabId : Nat) (h : st.tabAbsent tabId) (hreq : ∀ e ∈ es, e.isRequestOn tabId = false) :
    (run hostnameOf es st).tabAbsent tabId := by
  unfold run
  induction es generalizing st with
  | nil => exact h
  | cons e es ih =>
    rw [List.foldl_cons]
    exact ih _ (step_tabAbsent hostnameOf e st tabId h (hreq e (List.mem_cons_self _ _)))
      (fun e2 he2 => hreq e2 (List.mem_cons_of_mem _ he2))

theorem settle_pending_unchanged (k : Handlers) (r : Settled) (st : State)
    (h : st.tabAbsent k.tabId) :
    (settle k r st).1.redirectedTabs = st.redirectedTabs ∧
    (settle k r st).1.allowedOAuthTabs = st.allowedOAuthTabs ∧
    (settle k r st).1.loginInProgressTabs = st.loginInProgressTabs ∧
    ∀ eff ∈ (settle k r st).2, eff.pendingTab = k.tabId := by
  obtain ⟨a1, a2, a3⟩ := h
  cases k with
  | tabLookup tabId =>
    simp only [Handlers.tabId] at a1 a2 a3 ⊢
    have hdel : JsMap.delete st.redirectedTabs tabId = st.redirectedTabs :=
      JsMap.delete_of_not_has _ _ a1
    cases r with
    | fulfilled tabUrl =>
      simp only [settle, tabLookup_fulfilled, tabInfo_none_of_not_has st tabId a1, a3, hdel]
      split <;> simp
    | rejected =>
      simp [settle, tabLookup, tabLookupCatch, hdel]
  | promptWindow tabId =>
    simp only [Handlers.tabId] at a1 a2 a3 ⊢
    cases r with
    | fulfilled _ => simp [settle, promptWindow]
    | rejected =>
      simp [settle, promptWindow, a3, handleOAuthLogin, tabInfo_none_of_not_has st tabId a1]
  | adminNavigation tabId tabInfo =>
    simp only [Handlers.tabId] at a1 a2 a3 ⊢
    cases r with
    | fulfilled _ =>
      simp only [settle, adminNavigation, monitorLoginCompletion]
      split <;> simp [Effect.pendingTab, Callback.tabId]
    | rejected =>
      simp [settle, adminNavigation, JsMap.delete_of_not_has _ _ a1,
        JsSet.delete_absent _ _ a3]
  | oauthNavigation tabId =>
    simp only [Handlers.tabId] at a1 a2 a3 ⊢
    cases r with
    | fulfilled _ => simp [settle, oauthNavigation, Effect.pendingTab, Callback.tabId]
    | rejected => simp [settle, oauthNavigation, JsSet.delete_absent _ _ a2]
  | returnNavigation tabId =>
    simp only [Handlers.tabId] at a1 a2 a3 ⊢
    cases r with
    | fulfilled _ =>
      simp [settle, returnNavigation, JsMap.delete_of_not_has _ _ a1, Effect.pendingTab,
        Callback.tabId]
    | rejected =>
      simp [settle, returnNavigation, JsMap.delete_of_not_has _ _ a1,
        JsSet.delete_absent _ _ a3]

theorem fire_pending_unchanged (cb : Callback) (st : State) (h : st.tabAbsent cb.tabId) :
    (fire cb st).1.redirectedTabs = st.redirectedTabs ∧
    (fire cb st).1.allowedOAuthTabs = st.allowedOAuthTabs ∧
    (fire cb st).1.loginInProgressTabs = st.loginInProgressTabs ∧
    ∀ eff ∈ (fire cb st).2, eff.pendingTab = cb.tabId := by
  obtain ⟨a1, a2, a3⟩ := h
  cases cb with
  | oauthNavigate tabId url => simp [fire, Effect.pendingTab, Handlers.tabId, Callback.tabId]
  | oauthCleanup tabId =>
    simp only [Callback.tabId] at a1 a2 a3 ⊢
    simp [fire, JsMap.delete_of_not_has _ _ a1, JsSet.delete_absent _ _ a2]
  | returnToOriginal tabId url =>
    simp [fire, Effect.pendingTab, Handlers.tabId, Callback.tabId]
  | loginFlagCleanup tabId =>
    simp only [Callback.tabId] at a1 a2 a3 ⊢
    simp [fire, JsSet.delete_absent _ _ a3]
  | monitorTimeout tabId self =>
    simp only [Callback.tabId] at a1 a2 a3 ⊢
    simp [fire, State.removeListener, JsSet.delete_absent _ _ a3]

theorem step_pending_unchanged (hostnameOf : String → Option String) (e : Event)
    (st : State) (tabId : Nat) (h : st.tabAbsent tabId) (hpend : e.pendingFor tabId = true) :
    (step hostnameOf e st).1.redirectedTabs = st.redirectedTabs ∧
    (step hostnameOf e st).1.allowedOAuthTabs = st.allowedOAuthTabs ∧
    (step hostnameOf e st).1.loginInProgressTabs = st.loginInProgressTabs ∧
    ∀ eff ∈ (step hostnameOf e st).2, eff.pendingTab = tabId := by
  cases e with
  | request now details => simp [Event.pendingFor] at hpend
  | tabUpdated other status tabUrl => simp [Event.pendingFor] at hpend
  | tabRemoved other => simp [Event.pendingFor] at hpend
  | message message =>
    cases message with
    | useAdminLogin other =>
      have heq : other = tabId := by simpa [Event.pendingFor] using hpend
      subst heq
      simp [step, onMessage, handleAdminLogin, tabInfo_none_of_not_has st _ h.1]
    | useOAuth other =>
      have heq : other = tabId := by simpa [Event.pendingFor] using hpend
      subst heq
      simp [step, onMessage, handleOAuthLogin, tabInfo_none_of_not_has st _ h.1]
    | updateInstances instances => simp [Event.pendingFor] at hpend
    | other => simp [Event.pendingFor] at hpend
  | settled k r =>
    have heq : k.tabId = tabId := by simpa [Event.pendingFor] using hpend
    subst heq
    exact settle_pending_unchanged k r st h
  | timer callback =>
    have heq : callback.tabId = tabId := by simpa [Event.pendingFor] using hpend
    subst heq
    exact fire_pending_unchanged callback st h

/-- C5: after the tab-closed event the tab is in none of the three
collections, whatever it was in before; in any later state where it is still
absent, every pending promise continuation, timer or late prompt message of
that tab leaves the three collections as they are and leaves pending only
work of that same tab; the tab stays absent through every sequence of events
that holds no new request of the closed tab; so after any such sequence a
pending continuation, timer or message of the tab still changes none of the
three collections. -/
theorem onRemoved_final (hostnameOf : String → Option String) (tabId : Nat) (st : State) :
    ((onRemoved tabId st).1.tabAbsent tabId ∧ (onRemoved tabId st).2 = []) ∧
    (∀ (later : State) (e : Event),
      later.tabAbsent tabId → e.pendingFor tabId = true →
      (step hostnameOf e later).1.redirectedTabs = later.redirectedTabs ∧
      (step hostnameOf e later).1.allowedOAuthTabs = later.allowedOAuthTabs ∧
      (step hostnameOf e later).1.loginInProgressTabs = later.loginInProgressTabs ∧
      ∀ eff ∈ (step hostnameOf e later).2, eff.pendingTab = tabId) ∧
    (∀ es : List Event, (∀ e ∈ es, e.isRequestOn tabId = false) →
      (run hostnameOf es (onRemoved tabId st).1).tabAbsent tabId) ∧
    (∀ (es : List Event) (e : Event), (∀ e2 ∈ es, e2.isRequestOn tabId = false) →
      e.pendingFor tabId = true →
      (run hostnameOf (es ++ [e]) (onRemoved tabId st).1).redirectedTabs =
        (run hostnameOf es (onRemoved tabId st).1).redirectedTabs ∧
      (run hostnameOf (es ++ [e]) (onRemoved tabId st).1).allowedOAuthTabs =
        (run hostnameOf es (onRemoved tabId st).1).allowedOAuthTabs ∧
      (run hostnameOf (es ++ [e]) (onRemoved tabId st).1).loginInProgressTabs =
        (run hostnameOf es (onRemoved tabId st).1).loginInProgressTabs) := by
  have habs : (onRemoved tabId st).1.tabAbsent tabId :=
    ⟨JsMap.has_delete_self _ _, JsSet.not_has_delete _ _, JsSet.not_has_delete _ _⟩
  refine ⟨⟨habs, rfl⟩, ?_, ?_, ?_⟩
  · intro later e hlater hpend
    exact step_pending_unchanged hostnameOf e later tabId hlater hpend
  · intro es hes
    exact run_tabAbsent hostnameOf es _ tabId habs hes
  · intro es e hes hpend
    have hlater := run_tabAbsent hostnameOf es _ tabId habs hes
    have hstep := step_pending_unchanged hostnameOf e _ tabId hlater hpend
    have hrun : run hostnameOf (es ++ [e]) (onRemoved tabId st).1 =
        (step hostnameOf e (run hostnameOf es (onRemoved tabId st).1)).1 := by
      simp [run, List.foldl_append]
    rw [hrun]
    exact ⟨hstep.1, hstep.2.1, hstep.2.2.1⟩

/-- C5, worked example: tab 7 closes while its admin login is monitored; the
late lookup answer changes no collection, and the monitor timeout, a late
prompt message and a failed return navigation leave the tab absent. -/
theorem onRemoved_final_witness :
    (onRemoved 7 sampleMonitoring).1.tabAbsent 7 ∧
    (step plainHostname
      (Event.settled (Handlers.tabLookup 7)
        (Settled.fulfilled (some "https://foo.service-now.com/incident_list.do")))
      (onRemoved 7 sampleMonitoring).1).1.redirectedTabs =
        (onRemoved 7 sampleMonitoring).1.redirectedTabs ∧
    (run plainHostname
      [Event.timer (Callback.monitorTimeout 7 0), Event.message (Message.useAdminLogin 7),
        Event.settled (Handlers.returnNavigation 7) Settled.rejected]
      (onRemoved 7 sampleMonitoring).1).tabAbsent 7 :=
  ⟨(onRemoved_final plainHostname 7 sampleMonitoring).1.1,
    ((onRemoved_final plainHostname 7 sampleMonitoring).2.1 _ _
      (onRemoved_final plainHostname 7 sampleMonitoring).1.1 (by decide)).1,
    (onRemoved_final plainHostname 7 sampleMonitoring).2.2.1 _ (by decide)⟩

end SNAuth
